import Mathlib

/-!
Verification development for a supermarket checkout discrete-event simulator.

The simulator (Python sources under `simulation/`) models customers joining
checkout lines, beginning and finishing checkout, driven by a timestamp-ordered
event queue.  This file gives a shallow embedding of the data model and the
operations, and proves properties of them.

Modelling conventions:
* Python objects referenced from several places (customers held by events and
  by lines) are represented relationally: a central table `customers : List
  Customer` indexed by customer id, with queues and served lists holding ids.
  This mirrors the Python heap, where `create_event_list` numbers customers
  `0, 1, 2, ...` in creation order.
* Machine integers are `Int` (Python ints are unbounded).
* Failing code paths (`assert`, `raise`, blocking `Queue.get`, numpy errors)
  are `Except String` errors.
* Python string operations (`str.split`, `str.strip`, `int(...)`) and the
  `heapq` loops are embedded as structural recursions over `List Char`
  respectively with an explicit fuel argument, so everything evaluates by
  kernel reduction.
* `numpy` float statistics (`mean`, `std`) are modelled exactly over `ℚ`;
  the `std_sq` field holds the variance, of which numpy's `std` is the
  square root.
-/

namespace Supermarket

/-- Decidable equality for `Except`, used to evaluate concrete runs. -/
instance {ε α : Type} [DecidableEq ε] [DecidableEq α] : DecidableEq (Except ε α) := fun a b =>
  match a, b with
  | .ok x, .ok y =>
      if h : x = y then .isTrue (by rw [h]) else .isFalse (by simp [h])
  | .error e, .error f =>
      if h : e = f then .isTrue (by rw [h]) else .isFalse (by simp [h])
  | .ok _, .error _ => .isFalse (by simp)
  | .error _, .ok _ => .isFalse (by simp)

/-! ## Data model (`customer.py`, `checkout_line.py`, `grocery_store.py`) -/

/-- A customer (`customer.py`).  The id is the customer's index in the
simulation's customer table, so it is not repeated as a field.  The three
timestamps start out as `None`. -/
structure Customer where
  num_items : Int
  join_timestamp : Option Int := none
  begin_timestamp : Option Int := none
  finish_timestamp : Option Int := none
deriving Repr, DecidableEq

instance : Inhabited Customer := ⟨{ num_items := 0 }⟩

/-- A checkout line (`checkout_line.py`).  `queue` is the FCFS waiting
sequence and `served` the list of previously served customers, both holding
customer ids. -/
structure CheckoutLine where
  id : Nat
  type : String
  queue : List Nat := []
  served : List Nat := []
  closed : Bool := false
deriving Repr, DecidableEq

instance : Inhabited CheckoutLine := ⟨{ id := 0, type := "cashier" }⟩

/-- A grocery store (`grocery_store.py`): the lines, the cursor used by the
round-robin policy, and the line count.  `last_line_id` is an `Int` because
`GroceryStore.__init__` sets it to `-1` for a store with no lines. -/
structure GroceryStore where
  lines : List CheckoutLine
  last_line_id : Int
  total_lines : Nat
deriving Repr, DecidableEq

/-- Look a customer up in the customer table (dereference a Python customer
reference).  Ids are always in range in states reachable from a run. -/
def getc (cs : List Customer) (cid : Nat) : Customer := cs.getD cid default

/-! ### CheckoutLine operations -/

/-- CheckoutLine.get_num_customers: the length of the waiting queue. -/
def get_num_customers (l : CheckoutLine) : Nat := l.queue.length

/-- CheckoutLine.is_empty. -/
def is_empty (l : CheckoutLine) : Bool := get_num_customers l == 0

/-- CheckoutLine.serve_next_customer: peek the head of the queue; asserts the
line is not empty. -/
def serve_next_customer (l : CheckoutLine) : Except String Nat :=
  match l.queue with
  | [] => .error "Error: cannot serve next customer from empty queue."
  | c :: _ => .ok c

/-- CheckoutLine.queue_new_customer: append to the waiting queue; asserts the
line is not closed. -/
def queue_new_customer (l : CheckoutLine) (cid : Nat) : Except String CheckoutLine :=
  if l.closed then .error "Error: cannot accept new customer in closed line."
  else .ok { l with queue := l.queue ++ [cid] }

/-- CheckoutLine.get_num_items: total item count over the waiting queue
(a `reduce` with `+` in the source). -/
def get_num_items (cs : List Customer) (l : CheckoutLine) : Int :=
  l.queue.foldl (fun accum cid => accum + (getc cs cid).num_items) 0

/-! ### Utility: checkout-duration models (`utility.py`) -/

/-- Weight of the linear checkout-time model (`Utility._checkout_w`).  The
dictionary is only ever read at the three keys below. -/
def checkout_w : String → Int
  | "cashier" => 1
  | "express" => 1
  | "self" => 2
  | _ => 0

/-- Bias of the linear checkout-time model (`Utility._checkout_b`). -/
def checkout_b : String → Int
  | "cashier" => 7
  | "express" => 4
  | "self" => 1
  | _ => 0

/-- A pluggable checkout-duration model (`Utility.get_checkout_time` slot). -/
def DurationModel : Type := Customer → CheckoutLine → Except String Int

/-- Utility.get_checkout_time_deterministic:
`num_items * w[type] + b[type]`, a `ValueError` for an unknown line type. -/
def get_checkout_time_deterministic : DurationModel := fun customer line =>
  if line.type = "cashier" ∨ line.type = "express" ∨ line.type = "self" then
    .ok (customer.num_items * checkout_w line.type + checkout_b line.type)
  else
    .error "Error: unknown checkout line type."

/-- CheckoutLine.get_queue_time: expected time to drain the queue, summing the
duration model over the waiting customers; the head is skipped when
`count_first` is false; `0` for an empty queue. -/
def get_queue_time (gct : DurationModel) (cs : List Customer) (count_first : Bool)
    (l : CheckoutLine) : Except String Int :=
  if l.queue.length = 0 then .ok 0
  else
    (if count_first then l.queue else l.queue.drop 1).foldlM
      (fun wait_time cid => do
        let t ← gct (getc cs cid) l
        pure (wait_time + t)) 0

/-! ### Utility: line-selection policies (`utility.py`)

Every policy guards candidates with the same inline condition
`not line.closed and (line.type != "express" or customer.num_items <= 10)`,
embedded once as `eligible`. -/

/-- The shared eligibility test of all selection policies. -/
def eligible (customer : Customer) (line : CheckoutLine) : Bool :=
  !line.closed && (line.type != "express" || customer.num_items ≤ 10)

/-- Assertion message shared by all selection policies. -/
def no_line_msg : String :=
  "Error: to pick a line when all lines are closed/not applicable."

/-- The `for line in store.lines` scan shared by the least-person, least-item
and least-time policies: keep the first candidate whose metric is strictly
smaller than the current best.  `i` counts the position in `store.lines`, so
the returned pair records which list element became `best_line`.  The metric
runs in `Except` because `get_queue_time` can raise. -/
def pickLeastAux (elig : CheckoutLine → Bool) (m : CheckoutLine → Except String Int) :
    List CheckoutLine → Nat → Option (Nat × CheckoutLine) →
    Except String (Option (Nat × CheckoutLine))
  | [], _, best => .ok best
  | l :: rest, i, none =>
      if elig l then pickLeastAux elig m rest (i + 1) (some (i, l))
      else pickLeastAux elig m rest (i + 1) none
  | l :: rest, i, some (bi, bl) =>
      if elig l then do
        let ml ← m l
        let mb ← m bl
        if ml < mb then pickLeastAux elig m rest (i + 1) (some (i, l))
        else pickLeastAux elig m rest (i + 1) (some (bi, bl))
      else pickLeastAux elig m rest (i + 1) (some (bi, bl))

/-- Utility.pick_checkout_line_least_person: eligible line with the fewest
waiting customers, first encountered wins; asserts some line is eligible.
Returns the chosen line's position in `store.lines`. -/
def pick_checkout_line_least_person (customer : Customer) (store : GroceryStore) :
    Except String Nat :=
  match pickLeastAux (eligible customer)
      (fun l => .ok (get_num_customers l : Int)) store.lines 0 none with
  | .error e => .error e
  | .ok none => .error no_line_msg
  | .ok (some p) => .ok p.1

/-- Utility.pick_checkout_line_least_item: eligible line with the fewest
waiting items. -/
def pick_checkout_line_least_item (cs : List Customer) (customer : Customer)
    (store : GroceryStore) : Except String Nat :=
  match pickLeastAux (eligible customer)
      (fun l => .ok (get_num_items cs l)) store.lines 0 none with
  | .error e => .error e
  | .ok none => .error no_line_msg
  | .ok (some p) => .ok p.1

/-- Utility.pick_checkout_line_least_time: eligible line with the smallest
projected queue time (under the `Utility.count_first` toggle). -/
def pick_checkout_line_least_time (gct : DurationModel) (count_first : Bool)
    (cs : List Customer) (customer : Customer) (store : GroceryStore) :
    Except String Nat :=
  match pickLeastAux (eligible customer)
      (get_queue_time gct cs count_first) store.lines 0 none with
  | .error e => .error e
  | .ok none => .error no_line_msg
  | .ok (some p) => .ok p.1

/-- Eligible lines with their positions, in iteration order: the
`lines_avail` list built by the pure-random policy (`i` counts the position
in `store.lines`). -/
def lines_avail (customer : Customer) : List CheckoutLine → Nat → List (Nat × CheckoutLine)
  | [], _ => []
  | l :: rest, i =>
      if eligible customer l then (i, l) :: lines_avail customer rest (i + 1)
      else lines_avail customer rest (i + 1)

/-- Utility.pick_checkout_line_pure_random: uniform choice among eligible
lines; asserts the eligible set is non-empty.  The value sampled by
`np.random.randint(len(lines_avail))` is supplied as the oracle `r`, reduced
mod the list length so that every `r` denotes a valid sample. -/
def pick_checkout_line_pure_random (r : Nat) (customer : Customer)
    (store : GroceryStore) : Except String Nat :=
  match lines_avail customer store.lines 0 with
  | [] => .error no_line_msg
  | a :: rest => .ok ((a :: rest).getD (r % (a :: rest).length) a).1

/-- The cyclic scan of the round-robin policy: try the offsets in order,
index `(last_line_id + offset) % total_lines` into `store.lines`, and stop at
the first eligible line, returning its position together with the line. -/
def rrAux (customer : Customer) (lines : List CheckoutLine) (last : Int) (total : Nat) :
    List Nat → Except String (Option (Nat × CheckoutLine))
  | [] => .ok none
  | offset :: rest =>
      let idx := ((last + (offset : Int)) % (total : Int)).toNat
      match lines[idx]? with
      | none => .error "Error: line index out of range."
      | some l =>
          if eligible customer l then .ok (some (idx, l))
          else rrAux customer lines last total rest

/-- Utility.pick_checkout_line_round_robin: scan offsets `1 .. total_lines`
cyclically from the cursor, pick the first eligible line, and advance the
store's `last_line_id` cursor to the chosen line's id.  Returns the chosen
position and the updated store. -/
def pick_checkout_line_round_robin (customer : Customer) (store : GroceryStore) :
    Except String (Nat × GroceryStore) := do
  match ← rrAux customer store.lines store.last_line_id store.total_lines
      ((List.range store.total_lines).map (· + 1)) with
  | none => .error no_line_msg
  | some (idx, next_line) =>
      .ok (idx, { store with last_line_id := (next_line.id : Int) })

/-! ### GroceryStore construction -/

/-- Lexicographic comparison of char lists by code point. -/
def charsLt : List Char → List Char → Bool
  | [], [] => false
  | [], _ :: _ => true
  | _ :: _, [] => false
  | c :: cs, d :: ds =>
      if c.toNat < d.toNat then true
      else if d.toNat < c.toNat then false
      else charsLt cs ds

/-- Python's `<` on strings (used on the keys compared by `sorted`). -/
def strLt (a b : String) : Bool := charsLt a.data b.data

/-- Stable insertion into a sorted list: the embedding of Python's stable
`sorted` keeps an earlier element before later elements with an equal key. -/
def insertSorted (lt : α → α → Bool) (x : α) : List α → List α
  | [] => [x]
  | y :: ys => if lt y x then y :: insertSorted lt x ys else x :: y :: ys

/-- Python's stable `sorted`, as insertion sort. -/
def sortedBy (lt : α → α → Bool) : List α → List α
  | [] => []
  | x :: xs => insertSorted lt x (sortedBy lt xs)

/-- The line-creating loop of GroceryStore.__init__: one fresh line per
type entry, with consecutive ids counted by `line_id`. -/
def mkLines : List String → Nat → List CheckoutLine
  | [], _ => []
  | ty :: rest, line_id => { id := line_id, type := ty } :: mkLines rest (line_id + 1)

/-- The lines created by GroceryStore.__init__: iterate the `line_counts`
mapping in sorted key order and create `count` lines per entry with the key
as the line type and consecutive ids starting at 0. -/
def init_lines (line_counts : List (String × Nat)) : List CheckoutLine :=
  mkLines
    ((sortedBy (fun a b => strLt a.1 b.1) line_counts).foldl
      (fun acc p => acc ++ List.replicate p.2 p.1) ([] : List String)) 0

/-- GroceryStore.__init__: build the lines; the round-robin cursor starts at
`line_id - 1`, i.e. the highest assigned id (`-1` for an empty store). -/
def GroceryStore.init (line_counts : List (String × Nat)) : GroceryStore :=
  { lines := init_lines line_counts
    last_line_id := ((init_lines line_counts).length : Int) - 1
    total_lines := (init_lines line_counts).length }

/-! ## Events (`event.py`)

The five event kinds.  Customer and line references are the customer's id in
the customer table and the line's position in `store.lines`.
`JoinCheckoutEvent` carries no line: its line is picked when it executes. -/

/-- The event variants of `event.py`. -/
inductive Event : Type
  | joinCheckout (timestamp : Int) (customer : Nat)
  | beginCheckout (timestamp : Int) (customer : Nat) (line : Nat)
  | finishCheckout (timestamp : Int) (customer : Nat) (line : Nat)
  | lineOpen (timestamp : Int) (line : Nat)
  | lineClose (timestamp : Int) (line : Nat)
deriving Repr, DecidableEq

instance : Inhabited Event := ⟨.joinCheckout 0 0⟩

/-- The timestamp of an event. -/
def Event.timestamp : Event → Int
  | .joinCheckout t _ => t
  | .beginCheckout t _ _ => t
  | .finishCheckout t _ _ => t
  | .lineOpen t _ => t
  | .lineClose t _ => t

/-- Event.__lt__: events compare by timestamp only. -/
def Event.lt (a b : Event) : Bool := a.timestamp < b.timestamp

/-! ## The event queue (`queue.PriorityQueue`, backed by `heapq`)

`PriorityQueue.put`/`get` are `heappush`/`heappop` on a plain list ordered by
`Event.lt`.  The `while` loops of `heapq._siftdown`/`_siftup` are embedded
with an explicit fuel argument; call sites pass enough fuel for the loops to
run to completion (`_siftdown` walks up the tree, `_siftup` walks down, so
the heap size bounds both). -/

/-- heapq._siftdown: bubble `newitem` (sitting at `pos`) up towards
`startpos` while it is smaller than its parent. -/
def siftdown : Nat → List Event → Nat → Nat → Event → List Event
  | 0, heap, _, pos, newitem => heap.set pos newitem
  | fuel + 1, heap, startpos, pos, newitem =>
      if startpos < pos then
        let parentpos := (pos - 1) / 2
        let parent := heap.getD parentpos default
        if Event.lt newitem parent then
          siftdown fuel (heap.set pos parent) startpos parentpos newitem
        else heap.set pos newitem
      else heap.set pos newitem

/-- heapq._siftup: move the hole at `pos` down to a leaf, then sift the new
item up from there. -/
def siftup : Nat → List Event → Nat → Nat → Event → List Event
  | 0, heap, startpos, pos, newitem => siftdown heap.length (heap.set pos newitem) startpos pos
      newitem
  | fuel + 1, heap, startpos, pos, newitem =>
      let endpos := heap.length
      let childpos := 2 * pos + 1
      if childpos < endpos then
        let rightpos := childpos + 1
        let childpos :=
          if rightpos < endpos &&
              !(Event.lt (heap.getD childpos default) (heap.getD rightpos default)) then
            rightpos
          else childpos
        siftup fuel (heap.set pos (heap.getD childpos default)) startpos childpos newitem
      else siftdown heap.length (heap.set pos newitem) startpos pos newitem

/-- heapq.heappush. -/
def heappush (heap : List Event) (item : Event) : List Event :=
  siftdown (heap.length + 1) (heap ++ [item]) 0 heap.length item

/-- heapq.heappop; `none` on an empty heap (the engine loop checks emptiness
before calling `get`, so the blocking branch of `Queue.get` never runs). -/
def heappop (heap : List Event) : Option (Event × List Event) :=
  match heap.getLast? with
  | none => none
  | some lastelt =>
      let rest := heap.dropLast
      match rest with
      | [] => some (lastelt, [])
      | returnitem :: _ =>
          some (returnitem, siftup rest.length (rest.set 0 lastelt) 0 0 lastelt)

/-! ## Simulation state and event execution -/

/-- The mutable state touched by events: the store and the customer table. -/
structure SimState where
  store : GroceryStore
  customers : List Customer
deriving Repr, DecidableEq

/-- Replace line `i` of a store. -/
def setLine (store : GroceryStore) (i : Nat) (l : CheckoutLine) : GroceryStore :=
  { store with lines := store.lines.set i l }

/-- Update customer `cid` of the table in place. -/
def updateCustomer (cs : List Customer) (cid : Nat) (f : Customer → Customer) :
    List Customer :=
  match cs[cid]? with
  | none => cs
  | some c => cs.set cid (f c)

/-- The pluggable strategy slots of `Utility` used by event execution: the
active duration model (`Utility.get_checkout_time`) and the active selection
policy (`Utility.pick_checkout_line`).  A policy returns the picked line's
position and the (possibly cursor-updated) store. -/
structure Config where
  get_checkout_time : DurationModel
  pick_checkout_line : Customer → SimState → Except String (Nat × GroceryStore)

/-- Event.do (named `exec` because `do` is reserved in Lean): perform the
event on the state and return the spawned events.

* JoinCheckoutEvent.do: set the join timestamp, pick a line with the active
  policy, enqueue the customer there, and spawn a BeginCheckout with the same
  timestamp when the line was empty.
* BeginCheckoutEvent.do: set the begin timestamp and spawn a FinishCheckout
  at `timestamp + checkout_time`.
* FinishCheckoutEvent.do: set the finish timestamp, dequeue the head of the
  line into its served list, and spawn a BeginCheckout for the new head with
  the same timestamp when the queue is still non-empty.
* LineOpenEvent.do / LineCloseEvent.do: toggle the closed flag. -/
def Event.exec (cfg : Config) : Event → SimState → Except String (SimState × List Event)
  | .joinCheckout t cid, st => do
      let st1 : SimState :=
        { st with customers :=
            updateCustomer st.customers cid (fun c => { c with join_timestamp := some t }) }
      let (li, store1) ← cfg.pick_checkout_line (getc st1.customers cid) st1
      match store1.lines[li]? with
      | none => .error "Error: line index out of range."
      | some l =>
          if is_empty l then do
            let l1 ← queue_new_customer l cid
            .ok ({ st1 with store := setLine store1 li l1 }, [.beginCheckout t cid li])
          else do
            let l1 ← queue_new_customer l cid
            .ok ({ st1 with store := setLine store1 li l1 }, [])
  | .beginCheckout t cid li, st => do
      let st1 : SimState :=
        { st with customers :=
            updateCustomer st.customers cid (fun c => { c with begin_timestamp := some t }) }
      match st1.store.lines[li]? with
      | none => .error "Error: line index out of range."
      | some l => do
          let checkout_time ← cfg.get_checkout_time (getc st1.customers cid) l
          .ok (st1, [.finishCheckout (t + checkout_time) cid li])
  | .finishCheckout t cid li, st => do
      let st1 : SimState :=
        { st with customers :=
            updateCustomer st.customers cid (fun c => { c with finish_timestamp := some t }) }
      match st1.store.lines[li]? with
      | none => .error "Error: line index out of range."
      | some l =>
          match l.queue with
          | [] => .error "Error: Queue.get blocked on an empty queue."
          | served_customer :: rest =>
              let l1 := { l with queue := rest, served := l.served ++ [served_customer] }
              let st2 := { st1 with store := setLine st1.store li l1 }
              if !is_empty l1 then do
                let next_customer ← serve_next_customer l1
                .ok (st2, [.beginCheckout t next_customer li])
              else .ok (st2, [])
  | .lineOpen _ li, st =>
      match st.store.lines[li]? with
      | none => .error "Error: line index out of range."
      | some l => .ok ({ st with store := setLine st.store li { l with closed := false } }, [])
  | .lineClose _ li, st =>
      match st.store.lines[li]? with
      | none => .error "Error: line index out of range."
      | some l => .ok ({ st with store := setLine st.store li { l with closed := true } }, [])

/-! ## Parsing the initial event text (`event.py / create_event_list`)

Python's `str.strip`, `str.split` and `int(...)` are embedded structurally
over `List Char` (the Lean library versions do not reduce in the kernel).
The inputs exercised here contain no exotic whitespace or underscore digit
groupings, where `int(...)` is more liberal than this embedding. -/

/-- Python str.split(sep) for a one-character separator: no merging of
adjacent separators, `[""]` for the empty string. -/
def splitChars (sep : Char) : List Char → List (List Char)
  | [] => [[]]
  | c :: rest =>
      let r := splitChars sep rest
      if c = sep then [] :: r
      else
        match r with
        | [] => [[c]]
        | g :: gs => (c :: g) :: gs

/-- Python str.strip(): drop whitespace from both ends. -/
def stripChars (s : List Char) : List Char :=
  ((s.dropWhile Char.isWhitespace).reverse.dropWhile Char.isWhitespace).reverse

/-- Digits of a decimal literal, `none` when empty or non-digit. -/
def parseDigits : List Char → Option Nat
  | [] => none
  | ds => ds.foldlM
      (fun acc c => if c.isDigit then some (acc * 10 + (c.toNat - '0'.toNat)) else none) 0

/-- Python int(str): optional surrounding whitespace, optional sign, decimal
digits. -/
def parseInt (s : List Char) : Option Int :=
  match stripChars s with
  | '-' :: ds => (parseDigits ds).map (fun n => -(n : Int))
  | '+' :: ds => (parseDigits ds).map (fun n => (n : Int))
  | ds => (parseDigits ds).map (fun n => (n : Int))

/-- `(line.id, position)` pairs of a line list, so that `lookup` finds the
first line with a given id, as the Python `filter(...)[0]` does. -/
def lineIdsWithPos : List CheckoutLine → Nat → List (Int × Nat)
  | [], _ => []
  | l :: rest, i => ((l.id : Int), i) :: lineIdsWithPos rest (i + 1)

/-- Parse one line of the initial event text, numbering a joining customer
`cid`; `none` stands for the `except` clause of `create_event_list` (any
malformed line).  For `open`/`close` the referenced line is the first line in
the store whose id equals the parameter; its position is recorded in the
event. -/
def parse_event_line (store : GroceryStore) (cid : Nat) (s : List Char) :
    Option (Event × Option Customer) :=
  match splitChars ',' s with
  | [t, ev, p] => do
      let timestamp ← parseInt t
      let param ← parseInt p
      if ev = "join".data then
        some (.joinCheckout timestamp cid, some { num_items := param })
      else if ev = "open".data ∨ ev = "close".data then do
        let pos ← (lineIdsWithPos store.lines 0).lookup param
        if ev = "open".data then some (.lineOpen timestamp pos, none)
        else some (.lineClose timestamp pos, none)
      else none
  | _ => none

/-- The loop body of create_event_list over the numbered raw lines:
customers are numbered `0, 1, 2, ...` in order of their `join` lines, and
any malformed line aborts the whole load with a line-indexed parse error. -/
def create_event_list_go (store : GroceryStore) :
    List (Nat × List Char) → Nat → Except String (List Event × List Customer)
  | [], _ => .ok ([], [])
  | (idx, s) :: rest, cid =>
      match parse_event_line store cid s with
      | none => .error ("Error: parse error on line " ++ toString idx ++ ".")
      | some (ev, customer) => do
          let (evs, custs) ← create_event_list_go store rest
            (cid + if customer.isSome then 1 else 0)
          .ok (ev :: evs, customer.toList ++ custs)

/-- create_event_list: strip the text, split it into lines, and parse each.
Returns the events together with the customers created while parsing (the
engine's customer table). -/
def create_event_list (initial_events_str : String) (store : GroceryStore) :
    Except String (List Event × List Customer) :=
  create_event_list_go store
    ((splitChars '\n' (stripChars initial_events_str.data)).enum) 0

/-! ## The simulation engine (`simulator.py`) -/

/-- The engine: the store plus customer table and the terminal flag
(`Simulator._finished`).  The event queue is empty outside `run`, so it is
not a field. -/
structure Simulator where
  state : SimState
  finished : Bool
deriving Repr, DecidableEq

/-- Simulator.__init__ from a store configuration. -/
def Simulator.init (line_counts : List (String × Nat)) : Simulator :=
  { state := { store := GroceryStore.init line_counts, customers := [] }
    finished := false }

/-- The engine's drain loop: pop the minimum event, execute it, push its
spawned events, until the queue is empty.  `fuel` bounds the number of
iterations; each event is processed in one step, so any fuel larger than the
total number of events processed is exact. -/
def runLoop (cfg : Config) : Nat → List Event → SimState → Except String SimState
  | 0, _, _ => .error "Error: out of fuel."
  | fuel + 1, heap, st =>
      match heappop heap with
      | none => .ok st
      | some (ev, heap1) => do
          let (st1, future_events) ← ev.exec cfg st
          runLoop cfg fuel (future_events.foldl heappush heap1) st1

/-- Simulator.run: refuse to run twice, load the initial events into the
priority queue, and drain it. -/
def Simulator.run (cfg : Config) (fuel : Nat) (sim : Simulator)
    (initial_events_str : String) : Except String Simulator := do
  if sim.finished then
    .error "Error: the simulator has finished running."
  else do
    let (initial_events, customers) ← create_event_list initial_events_str sim.state.store
    let heap := initial_events.foldl heappush []
    let st ← runLoop cfg fuel heap
      { sim.state with customers := sim.state.customers ++ customers }
    .ok { state := st, finished := true }

/-! ## Statistics query (`simulator.py / query_statistics`) -/

/-- Summary statistics of a query.  `mean` and the variance `std_sq` are
exact rationals; numpy's floating `std` is the square root of `std_sq`. -/
structure Stats where
  count : Nat
  sum : Int
  min : Int
  max : Int
  mean : ℚ
  std_sq : ℚ
deriving Repr, DecidableEq

/-- The timestamp selected by `filter_by`; an unknown `filter_by` is the
`ValueError` of the source, an unset timestamp the `TypeError` Python raises
when comparing `None` with an int. -/
def customer_filter_timestamp (cs : List Customer) (filter_by : String) (cid : Nat) :
    Except String Int :=
  let c := getc cs cid
  match
    (if filter_by = "join" then .ok c.join_timestamp
     else if filter_by = "begin" then .ok c.begin_timestamp
     else if filter_by = "finish" then .ok c.finish_timestamp
     else .error "Error: unknown filter_by." : Except String (Option Int)) with
  | .error e => .error e
  | .ok none => .error "TypeError: comparison with None."
  | .ok (some ts) => .ok ts

/-- The half-open window test `start_time <= ts < end_time`; `none` for
`end_time` is `float(\x22inf\x22)`. -/
def in_window (start_time : Int) (end_time : Option Int) (ts : Int) : Bool :=
  start_time ≤ ts &&
    (match end_time with
     | none => true
     | some e => ts < e)

/-- The inner loop of query_statistics over one line's served list: keep the
customers whose selected timestamp lies in the window. -/
def collect_line (cs : List Customer) (filter_by : String) (start_time : Int)
    (end_time : Option Int) : List Nat → Except String (List Nat)
  | [] => .ok []
  | cid :: rest => do
      let ts ← customer_filter_timestamp cs filter_by cid
      let more ← collect_line cs filter_by start_time end_time rest
      .ok ((if in_window start_time end_time ts then [cid] else []) ++ more)

/-- The outer loop of query_statistics: scan the lines, restricted to
`line_ids` when given. -/
def collect_customers (cs : List Customer) (line_ids : Option (List Nat))
    (filter_by : String) (start_time : Int) (end_time : Option Int) :
    List CheckoutLine → Except String (List Nat)
  | [] => .ok []
  | l :: rest => do
      let here ←
        (if match line_ids with
            | none => true
            | some ids => ids.contains l.id then
          collect_line cs filter_by start_time end_time l.served
        else .ok [])
      let there ← collect_customers cs line_ids filter_by start_time end_time rest
      .ok (here ++ there)

/-- Subtraction of two optional timestamps; `None` raises a `TypeError` in
Python. -/
def tsub : Option Int → Option Int → Except String Int
  | some a, some b => .ok (a - b)
  | _, _ => .error "TypeError: arithmetic with None."

/-- The raw per-customer criterion values.  An unknown criterion is the
source's `ValueError`; it is only raised when some customer was retained,
because the check sits inside the loop. -/
def raw_times (cs : List Customer) (criterion : String) :
    List Nat → Except String (List Int)
  | [] => .ok []
  | cid :: rest => do
      let c := getc cs cid
      let v ←
        (if criterion = "wait" then tsub c.begin_timestamp c.join_timestamp
         else if criterion = "checkout" then tsub c.finish_timestamp c.begin_timestamp
         else if criterion = "total" then tsub c.finish_timestamp c.join_timestamp
         else .error "Error: unknown criterion.")
      let more ← raw_times cs criterion rest
      .ok (v :: more)

/-- np.min of an int array: a `ValueError` on an empty array. -/
def np_min (xs : List Int) : Except String Int :=
  match xs with
  | [] => .error "ValueError: zero-size array to reduction operation."
  | x :: rest => .ok (rest.foldl min x)

/-- np.max of an int array: a `ValueError` on an empty array. -/
def np_max (xs : List Int) : Except String Int :=
  match xs with
  | [] => .error "ValueError: zero-size array to reduction operation."
  | x :: rest => .ok (rest.foldl max x)

/-- np.mean, exactly. -/
def np_mean (xs : List Int) : ℚ := (xs.sum : ℚ) / xs.length

/-- np.std squared: the population variance, exactly. -/
def np_var (xs : List Int) : ℚ :=
  ((xs.map (fun (x : Int) => ((x : ℚ) - np_mean xs) ^ 2)).sum) / xs.length

/-- Simulator.query_statistics: refuse before `run` has completed; default
the window to the full range; retain the served customers of the selected
lines whose `filter_by` timestamp lies in `[start_time, end_time)`; compute
the raw criterion values; and return them with the summary statistics.  The
summary tuple is built in source order, so on an empty selection `np.min`
raises before the mean or std is touched. -/
def Simulator.query_statistics (sim : Simulator) (criterion : String)
    (start_time : Option Int) (end_time : Option Int) (line_ids : Option (List Nat))
    (filter_by : String) : Except String (Stats × List Int) := do
  if !sim.finished then
    .error "Error: the simulation has not finished running."
  else do
    let start := start_time.getD 0
    let retained ← collect_customers sim.state.customers line_ids filter_by start
      end_time sim.state.store.lines
    let raw ← raw_times sim.state.customers criterion retained
    let mn ← np_min raw
    let mx ← np_max raw
    .ok ({ count := retained.length
           sum := raw.sum
           min := mn
           max := mx
           mean := np_mean raw
           std_sq := np_var raw }, raw)

/-- The engine configuration used by the concrete runs below: the
deterministic duration model with the least-person selection policy. -/
def detConfig : Config :=
  { get_checkout_time := get_checkout_time_deterministic
    pick_checkout_line := fun c st =>
      (pick_checkout_line_least_person c st.store).map (fun i => (i, st.store)) }

/-! ## Specification-level description of the statistics query

Used to state the query's refinement theorem: the lines selected by
`line_ids`, the timestamp selected by `filter_by`, the retained customers
and their criterion values, as plain filter/map expressions. -/

/-- The lines the query scans: all lines, or those whose id is listed. -/
def spec_selected_lines (lines : List CheckoutLine) (line_ids : Option (List Nat)) :
    List CheckoutLine :=
  lines.filter (fun l =>
    match line_ids with
    | none => true
    | some ids => ids.contains l.id)

/-- The timestamp field selected by `filter_by` (`none` for an unknown
`filter_by` or an unset field). -/
def spec_timestamp (filter_by : String) (c : Customer) : Option Int :=
  if filter_by = "join" then c.join_timestamp
  else if filter_by = "begin" then c.begin_timestamp
  else if filter_by = "finish" then c.finish_timestamp
  else none

/-- Whether a customer is retained: its selected timestamp lies in the
half-open window. -/
def spec_keep (cs : List Customer) (filter_by : String) (start_time : Int)
    (end_time : Option Int) (cid : Nat) : Bool :=
  match spec_timestamp filter_by (getc cs cid) with
  | some ts => in_window start_time end_time ts
  | none => false

/-- The customers a query retains: the served customers of the selected
lines whose selected timestamp lies in the window. -/
def spec_retained (cs : List Customer) (lines : List CheckoutLine)
    (line_ids : Option (List Nat)) (filter_by : String) (start_time : Int)
    (end_time : Option Int) : List Nat :=
  ((spec_selected_lines lines line_ids).map (fun l => l.served)).flatten.filter
    (spec_keep cs filter_by start_time end_time)

/-- The criterion value of a customer: wait = begin − join,
checkout = finish − begin, total = finish − join. -/
def spec_criterion (criterion : String) (c : Customer) : Int :=
  if criterion = "wait" then c.begin_timestamp.getD 0 - c.join_timestamp.getD 0
  else if criterion = "checkout" then c.finish_timestamp.getD 0 - c.begin_timestamp.getD 0
  else c.finish_timestamp.getD 0 - c.join_timestamp.getD 0

/-- The raw per-customer criterion values of the retained customers. -/
def spec_raw (cs : List Customer) (criterion : String) (cids : List Nat) : List Int :=
  cids.map (fun cid => spec_criterion criterion (getc cs cid))

/-- All three timestamps of a customer are set (true of every served
customer after a run). -/
def tsSet (c : Customer) : Prop :=
  c.join_timestamp ≠ none ∧ c.begin_timestamp ≠ none ∧ c.finish_timestamp ≠ none

instance (c : Customer) : Decidable (tsSet c) := by
  unfold tsSet
  infer_instance

/-- A finished one-line simulator with one served customer, used to
instantiate the query theorems. -/
def sample_finished_sim : Simulator :=
  { state :=
      { store := { lines := [{ id := 0, type := "cashier", served := [0] }]
                   last_line_id := 0, total_lines := 1 }
        customers := [{ num_items := 3, join_timestamp := some 0,
                        begin_timestamp := some 0, finish_timestamp := some 10 }] }
    finished := true }

/-- A finished one-line simulator with no served customer. -/
def sample_empty_sim : Simulator :=
  { state :=
      { store := { lines := [{ id := 0, type := "cashier" }]
                   last_line_id := 0, total_lines := 1 }
        customers := [] }
    finished := true }

/-! ## Named policy values for the engine's strategy slot -/

/-- The least-person policy, in the shape of the `Utility.pick_checkout_line`
slot. -/
def policy_least_person : Customer → SimState → Except String (Nat × GroceryStore) :=
  fun c st => (pick_checkout_line_least_person c st.store).map (fun i => (i, st.store))

/-- The least-item policy, in slot shape. -/
def policy_least_item : Customer → SimState → Except String (Nat × GroceryStore) :=
  fun c st => (pick_checkout_line_least_item st.customers c st.store).map (fun i => (i, st.store))

/-- The least-time policy, in slot shape. -/
def policy_least_time (gct : DurationModel) (count_first : Bool) :
    Customer → SimState → Except String (Nat × GroceryStore) :=
  fun c st =>
    (pick_checkout_line_least_time gct count_first st.customers c st.store).map
      (fun i => (i, st.store))

/-- The pure-random policy with oracle `r`, in slot shape. -/
def policy_pure_random (r : Nat) : Customer → SimState → Except String (Nat × GroceryStore) :=
  fun c st => (pick_checkout_line_pure_random r c st.store).map (fun i => (i, st.store))

/-- The round-robin policy, in slot shape. -/
def policy_round_robin : Customer → SimState → Except String (Nat × GroceryStore) :=
  fun c st => pick_checkout_line_round_robin c st.store

/-- Successive round-robin selections: pick, let the store's cursor evolve,
and collect the picked positions. -/
def rrIterate (c : Customer) : GroceryStore → Nat → Except String (List Nat × GroceryStore)
  | store, 0 => .ok ([], store)
  | store, n + 1 => do
      let (i, store1) ← pick_checkout_line_round_robin c store
      let (rest, store2) ← rrIterate c store1 n
      .ok (i :: rest, store2)

/-- A two-line sample store used to instantiate policy theorems: line 0 has
one waiting customer, line 1 is empty, both open cashier lines. -/
def sample_store : GroceryStore :=
  { lines := [{ id := 0, type := "cashier", queue := [0] },
              { id := 1, type := "cashier" }]
    last_line_id := 1
    total_lines := 2 }

/-- The customer table of the sample store. -/
def sample_customers : List Customer := [{ num_items := 4 }]

/-- An eligible line is not closed. -/
theorem eligible_not_closed (c : Customer) (l : CheckoutLine)
    (h : eligible c l = true) : l.closed = false := by
  simp only [eligible, Bool.and_eq_true, Bool.not_eq_true'] at h
  exact h.1

/-! ## Helper lemmas about the selection policies -/

/-- Positions of `mkLines`: the line at position `k` has id `line_id + k`
and the type at position `k`. -/
theorem mkLines_getElem? : ∀ (ts : List String) (i k : Nat),
    (mkLines ts i)[k]? = (ts[k]?).map (fun ty => { id := i + k, type := ty : CheckoutLine })
  | [], _, _ => by simp [mkLines]
  | ty :: rest, i, 0 => by simp [mkLines]
  | ty :: rest, i, k + 1 => by
      simpa [mkLines, Nat.add_assoc, Nat.add_comm 1 k] using mkLines_getElem? rest (i + 1) k

/-- Every line a `pickLeastAux` scan can return that does not come from the
incoming `best` accumulator is an eligible member of the scanned list, at the
recorded position. -/
theorem pickLeastAux_ok_some (elig : CheckoutLine → Bool)
    (m : CheckoutLine → Except String Int) :
    ∀ (ys : List CheckoutLine) (i : Nat) (best : Option (Nat × CheckoutLine))
      (p : Nat × CheckoutLine),
      pickLeastAux elig m ys i best = .ok (some p) →
      best = some p ∨ ∃ k l, ys[k]? = some l ∧ p = (i + k, l) ∧ elig l = true := by
  intro ys
  induction ys with
  | nil =>
      intro i best p h
      simp only [pickLeastAux, Except.ok.injEq] at h
      exact .inl h
  | cons l rest ih =>
      intro i best p h
      have shift : (∃ k l2, rest[k]? = some l2 ∧ p = (i + 1 + k, l2) ∧ elig l2 = true) →
          ∃ k l2, (l :: rest)[k]? = some l2 ∧ p = (i + k, l2) ∧ elig l2 = true := by
        rintro ⟨k, l2, hk, hp, he2⟩
        refine ⟨k + 1, l2, by simpa using hk, ?_, he2⟩
        rw [hp, Prod.mk.injEq]
        exact ⟨by omega, rfl⟩
      have self_case : some (i, l) = some p → elig l = true →
          ∃ k l2, (l :: rest)[k]? = some l2 ∧ p = (i + k, l2) ∧ elig l2 = true := by
        intro h1 he
        refine ⟨0, l, by simp, ?_, he⟩
        have : (i, l) = p := by simpa using h1
        simp [this.symm]
      rcases best with _ | ⟨bi, bl⟩
      · simp only [pickLeastAux] at h
        by_cases he : elig l
        · rw [if_pos he] at h
          rcases ih (i + 1) (some (i, l)) p h with h1 | hex
          · exact .inr (self_case h1 he)
          · exact .inr (shift hex)
        · rw [if_neg he] at h
          rcases ih (i + 1) none p h with h1 | hex
          · exact .inl h1
          · exact .inr (shift hex)
      · simp only [pickLeastAux] at h
        by_cases he : elig l
        · rw [if_pos he] at h
          cases hml : m l with
          | error e => rw [hml] at h; simp [Bind.bind, Except.bind] at h
          | ok ml =>
            cases hmb : m bl with
            | error e => rw [hml, hmb] at h; simp [Bind.bind, Except.bind] at h
            | ok mb =>
              rw [hml, hmb] at h
              simp only [Bind.bind, Except.bind] at h
              by_cases hc : ml < mb
              · rw [if_pos hc] at h
                rcases ih (i + 1) (some (i, l)) p h with h1 | hex
                · exact .inr (self_case h1 he)
                · exact .inr (shift hex)
              · rw [if_neg hc] at h
                rcases ih (i + 1) (some (bi, bl)) p h with h1 | hex
                · exact .inl h1
                · exact .inr (shift hex)
        · rw [if_neg he] at h
          rcases ih (i + 1) (some (bi, bl)) p h with h1 | hex
          · exact .inl h1
          · exact .inr (shift hex)

/-- Minimality of a `pickLeastAux` scan when the metric `m` computes the
total function `mv` on every relevant line: a returned candidate that is not
the incoming accumulator is eligible, its metric is a minimum over the
eligible scanned lines, it beats the incoming accumulator strictly, and it
beats every earlier eligible scanned line strictly (the first minimum in
iteration order wins). -/
theorem pickLeastAux_min_spec (elig : CheckoutLine → Bool)
    (m : CheckoutLine → Except String Int) (mv : CheckoutLine → Int) :
    ∀ (ys : List CheckoutLine) (i : Nat) (best : Option (Nat × CheckoutLine))
      (p : Nat × CheckoutLine),
      (∀ l ∈ ys, m l = .ok (mv l)) →
      (∀ q : Nat × CheckoutLine, best = some q → m q.2 = .ok (mv q.2)) →
      pickLeastAux elig m ys i best = .ok (some p) →
      (best = some p ∧
        ∀ (k : Nat) (l : CheckoutLine), ys[k]? = some l → elig l = true → mv p.2 ≤ mv l)
      ∨ (∃ k l, ys[k]? = some l ∧ p = (i + k, l) ∧ elig l = true
          ∧ (∀ q : Nat × CheckoutLine, best = some q → mv l < mv q.2)
          ∧ (∀ k2 l2, ys[k2]? = some l2 → elig l2 = true →
              mv l ≤ mv l2 ∧ (k2 < k → mv l < mv l2))) := by
  intro ys
  induction ys with
  | nil =>
      intro i best p _ _ h
      simp only [pickLeastAux, Except.ok.injEq] at h
      refine .inl ⟨h, ?_⟩
      intro k l hk he
      simp at hk
  | cons l rest ih =>
      intro i best p hm hb h
      have hml : m l = .ok (mv l) := hm l (by simp)
      have hmr : ∀ l2 ∈ rest, m l2 = .ok (mv l2) := fun l2 h2 => hm l2 (by simp [h2])
      rcases best with _ | ⟨bi, bl⟩
      · simp only [pickLeastAux] at h
        by_cases he : elig l
        · rw [if_pos he] at h
          have hb1 : ∀ q : Nat × CheckoutLine, some (i, l) = some q →
              m q.2 = .ok (mv q.2) := by
            intro q hq
            obtain rfl : (i, l) = q := by simpa using hq
            exact hml
          rcases ih (i + 1) (some (i, l)) p hmr hb1 h with ⟨h1, hall⟩ | hex
          · obtain rfl : (i, l) = p := by simpa using h1
            refine .inr ⟨0, l, by simp, by simp, he, by simp, ?_⟩
            intro k2 l2 hk2 he2
            cases k2 with
            | zero =>
                obtain rfl : l = l2 := by simpa using hk2
                exact ⟨le_refl _, by omega⟩
            | succ k2 =>
                refine ⟨hall k2 l2 (by simpa using hk2) he2, by omega⟩
          · obtain ⟨k, l2, hk, hp, he2, hbest, hall⟩ := hex
            have hll : mv l2 < mv l := hbest (i, l) rfl
            refine .inr ⟨k + 1, l2, by simpa using hk, ?_, he2, by simp, ?_⟩
            · rw [hp, Prod.mk.injEq]; exact ⟨by omega, rfl⟩
            · intro k2 l3 hk2 he3
              cases k2 with
              | zero =>
                  obtain rfl : l = l3 := by simpa using hk2
                  exact ⟨le_of_lt hll, fun _ => hll⟩
              | succ k2 =>
                  obtain ⟨h4, h5⟩ := hall k2 l3 (by simpa using hk2) he3
                  exact ⟨h4, fun h6 => h5 (by omega)⟩
        · rw [if_neg he] at h
          rcases ih (i + 1) none p hmr (by intro q hq; simp at hq) h with ⟨h1, _⟩ | hex
          · simp at h1
          · obtain ⟨k, l2, hk, hp, he2, _, hall⟩ := hex
            refine .inr ⟨k + 1, l2, by simpa using hk, ?_, he2, by simp, ?_⟩
            · rw [hp, Prod.mk.injEq]; exact ⟨by omega, rfl⟩
            · intro k2 l3 hk2 he3
              cases k2 with
              | zero =>
                  obtain rfl : l = l3 := by simpa using hk2
                  exact absurd he3 (by simpa using he)
              | succ k2 =>
                  obtain ⟨h4, h5⟩ := hall k2 l3 (by simpa using hk2) he3
                  exact ⟨h4, fun h6 => h5 (by omega)⟩
      · have hmbl : m bl = .ok (mv bl) := hb (bi, bl) rfl
        simp only [pickLeastAux] at h
        by_cases he : elig l
        · rw [if_pos he, hml, hmbl] at h
          simp only [Bind.bind, Except.bind] at h
          by_cases hc : mv l < mv bl
          · rw [if_pos hc] at h
            have hb1 : ∀ q : Nat × CheckoutLine, some (i, l) = some q →
                m q.2 = .ok (mv q.2) := by
              intro q hq
              obtain rfl : (i, l) = q := by simpa using hq
              exact hml
            rcases ih (i + 1) (some (i, l)) p hmr hb1 h with ⟨h1, hall⟩ | hex
            · obtain rfl : (i, l) = p := by simpa using h1
              refine .inr ⟨0, l, by simp, by simp, he, ?_, ?_⟩
              · intro q hq
                obtain rfl : (bi, bl) = q := by simpa using hq
                exact hc
              · intro k2 l2 hk2 he2
                cases k2 with
                | zero =>
                    obtain rfl : l = l2 := by simpa using hk2
                    exact ⟨le_refl _, by omega⟩
                | succ k2 =>
                    exact ⟨hall k2 l2 (by simpa using hk2) he2, by omega⟩
            · obtain ⟨k, l2, hk, hp, he2, hbest, hall⟩ := hex
              have hll : mv l2 < mv l := hbest (i, l) rfl
              refine .inr ⟨k + 1, l2, by simpa using hk, ?_, he2, ?_, ?_⟩
              · rw [hp, Prod.mk.injEq]; exact ⟨by omega, rfl⟩
              · intro q hq
                obtain rfl : (bi, bl) = q := by simpa using hq
                exact lt_trans hll hc
              · intro k2 l3 hk2 he3
                cases k2 with
                | zero =>
                    obtain rfl : l = l3 := by simpa using hk2
                    exact ⟨le_of_lt hll, fun _ => hll⟩
                | succ k2 =>
                    obtain ⟨h4, h5⟩ := hall k2 l3 (by simpa using hk2) he3
                    exact ⟨h4, fun h6 => h5 (by omega)⟩
          · rw [if_neg hc] at h
            push_neg at hc
            rcases ih (i + 1) (some (bi, bl)) p hmr hb h with ⟨h1, hall⟩ | hex
            · obtain rfl : ((bi, bl) : Nat × CheckoutLine) = p := by simpa using h1
              refine .inl ⟨rfl, ?_⟩
              intro k2 l2 hk2 he2
              cases k2 with
              | zero =>
                  obtain rfl : l = l2 := by simpa using hk2
                  exact hc
              | succ k2 =>
                  exact hall k2 l2 (by simpa using hk2) he2
            · obtain ⟨k, l2, hk, hp, he2, hbest, hall⟩ := hex
              have hlbl : mv l2 < mv bl := hbest (bi, bl) rfl
              refine .inr ⟨k + 1, l2, by simpa using hk, ?_, he2, hbest, ?_⟩
              · rw [hp, Prod.mk.injEq]; exact ⟨by omega, rfl⟩
              · intro k2 l3 hk2 he3
                cases k2 with
                | zero =>
                    obtain rfl : l = l3 := by simpa using hk2
                    exact ⟨le_of_lt (lt_of_lt_of_le hlbl hc),
                      fun _ => lt_of_lt_of_le hlbl hc⟩
                | succ k2 =>
                    obtain ⟨h4, h5⟩ := hall k2 l3 (by simpa using hk2) he3
                    exact ⟨h4, fun h6 => h5 (by omega)⟩
        · rw [if_neg he] at h
          rcases ih (i + 1) (some (bi, bl)) p hmr hb h with ⟨h1, hall⟩ | hex
          · refine .inl ⟨h1, ?_⟩
            intro k2 l2 hk2 he2
            cases k2 with
            | zero =>
                obtain rfl : l = l2 := by simpa using hk2
                exact absurd he2 (by simpa using he)
            | succ k2 =>
                exact hall k2 l2 (by simpa using hk2) he2
          · obtain ⟨k, l2, hk, hp, he2, hbest, hall⟩ := hex
            refine .inr ⟨k + 1, l2, by simpa using hk, ?_, he2, hbest, ?_⟩
            · rw [hp, Prod.mk.injEq]; exact ⟨by omega, rfl⟩
            · intro k2 l3 hk2 he3
              cases k2 with
              | zero =>
                  obtain rfl : l = l3 := by simpa using hk2
                  exact absurd he3 (by simpa using he)
              | succ k2 =>
                  obtain ⟨h4, h5⟩ := hall k2 l3 (by simpa using hk2) he3
                  exact ⟨h4, fun h6 => h5 (by omega)⟩

/-- A successful least-person pick returns the position of an eligible line
whose queue length is minimal among eligible lines, and strictly smaller
than that of every earlier eligible line. -/
theorem pick_least_person_ok (c : Customer) (store : GroceryStore) (i : Nat)
    (h : pick_checkout_line_least_person c store = .ok i) :
    ∃ l, store.lines[i]? = some l ∧ eligible c l = true ∧
      ∀ (j : Nat) (l2 : CheckoutLine), store.lines[j]? = some l2 →
        eligible c l2 = true →
        get_num_customers l ≤ get_num_customers l2 ∧
          (j < i → get_num_customers l < get_num_customers l2) := by
  unfold pick_checkout_line_least_person at h
  cases haux : pickLeastAux (eligible c)
      (fun l => .ok (get_num_customers l : Int)) store.lines 0 none with
  | error e => rw [haux] at h; simp at h
  | ok o =>
    cases o with
    | none => rw [haux] at h; simp at h
    | some p =>
        rw [haux] at h
        simp only [Except.ok.injEq] at h
        rcases hspec : pickLeastAux_min_spec (eligible c) _
          (fun l => (get_num_customers l : Int)) store.lines 0 none p
          (fun l _ => rfl) (by intro q hq; simp at hq) haux with ⟨h1, _⟩ | hex
        · simp at h1
        · obtain ⟨k, l, hk, hp, he, _, hall⟩ := hex
          have hik : i = k := by rw [← h, hp]; simp
          refine ⟨l, by rw [hik]; exact hk, he, ?_⟩
          intro j l2 hj he2
          obtain ⟨h4, h5⟩ := hall j l2 hj he2
          refine ⟨by exact_mod_cast h4, fun hji => by exact_mod_cast h5 (by omega)⟩

/-- A successful least-item pick returns the position of an eligible line
whose waiting-item total is minimal among eligible lines, and strictly
smaller than that of every earlier eligible line. -/
theorem pick_least_item_ok (cs : List Customer) (c : Customer) (store : GroceryStore)
    (i : Nat) (h : pick_checkout_line_least_item cs c store = .ok i) :
    ∃ l, store.lines[i]? = some l ∧ eligible c l = true ∧
      ∀ (j : Nat) (l2 : CheckoutLine), store.lines[j]? = some l2 →
        eligible c l2 = true →
        get_num_items cs l ≤ get_num_items cs l2 ∧
          (j < i → get_num_items cs l < get_num_items cs l2) := by
  unfold pick_checkout_line_least_item at h
  cases haux : pickLeastAux (eligible c)
      (fun l => .ok (get_num_items cs l)) store.lines 0 none with
  | error e => rw [haux] at h; simp at h
  | ok o =>
    cases o with
    | none => rw [haux] at h; simp at h
    | some p =>
        rw [haux] at h
        simp only [Except.ok.injEq] at h
        rcases pickLeastAux_min_spec (eligible c) _
          (fun l => get_num_items cs l) store.lines 0 none p
          (fun l _ => rfl) (by intro q hq; simp at hq) haux with ⟨h1, _⟩ | hex
        · simp at h1
        · obtain ⟨k, l, hk, hp, he, _, hall⟩ := hex
          have hik : i = k := by rw [← h, hp]; simp
          refine ⟨l, by rw [hik]; exact hk, he, ?_⟩
          intro j l2 hj he2
          obtain ⟨h4, h5⟩ := hall j l2 hj he2
          exact ⟨h4, fun hji => h5 (by omega)⟩

/-- A successful least-time pick, when the projected queue time computes the
total function `qt` on every line of the store, returns the position of an
eligible line whose projected time is minimal among eligible lines, and
strictly smaller than that of every earlier eligible line. -/
theorem pick_least_time_ok (gct : DurationModel) (count_first : Bool)
    (cs : List Customer) (c : Customer) (store : GroceryStore) (i : Nat)
    (qt : CheckoutLine → Int)
    (hqt : ∀ l ∈ store.lines, get_queue_time gct cs count_first l = .ok (qt l))
    (h : pick_checkout_line_least_time gct count_first cs c store = .ok i) :
    ∃ l, store.lines[i]? = some l ∧ eligible c l = true ∧
      ∀ (j : Nat) (l2 : CheckoutLine), store.lines[j]? = some l2 →
        eligible c l2 = true →
        qt l ≤ qt l2 ∧ (j < i → qt l < qt l2) := by
  unfold pick_checkout_line_least_time at h
  cases haux : pickLeastAux (eligible c)
      (get_queue_time gct cs count_first) store.lines 0 none with
  | error e => rw [haux] at h; simp at h
  | ok o =>
    cases o with
    | none => rw [haux] at h; simp at h
    | some p =>
        rw [haux] at h
        simp only [Except.ok.injEq] at h
        rcases pickLeastAux_min_spec (eligible c) _ qt store.lines 0 none p
          hqt (by intro q hq; simp at hq) haux with ⟨h1, _⟩ | hex
        · simp at h1
        · obtain ⟨k, l, hk, hp, he, _, hall⟩ := hex
          have hik : i = k := by rw [← h, hp]; simp
          refine ⟨l, by rw [hik]; exact hk, he, ?_⟩
          intro j l2 hj he2
          obtain ⟨h4, h5⟩ := hall j l2 hj he2
          exact ⟨h4, fun hji => h5 (by omega)⟩

/-- A successful least-time pick returns the position of an eligible line
(no assumption on the metric). -/
theorem pick_least_time_elig (gct : DurationModel) (count_first : Bool)
    (cs : List Customer) (c : Customer) (store : GroceryStore) (i : Nat)
    (h : pick_checkout_line_least_time gct count_first cs c store = .ok i) :
    ∃ l, store.lines[i]? = some l ∧ eligible c l = true := by
  unfold pick_checkout_line_least_time at h
  cases haux : pickLeastAux (eligible c)
      (get_queue_time gct cs count_first) store.lines 0 none with
  | error e => rw [haux] at h; simp at h
  | ok o =>
    cases o with
    | none => rw [haux] at h; simp at h
    | some p =>
        rw [haux] at h
        simp only [Except.ok.injEq] at h
        rcases pickLeastAux_ok_some (eligible c) _ store.lines 0 none p haux with
          h1 | ⟨k, l, hk, hp, he⟩
        · simp at h1
        · have hik : i = k := by rw [← h, hp]; simp
          exact ⟨l, by rw [hik]; exact hk, he⟩

/-- Every entry of `lines_avail` is an eligible line of the scanned list at
its recorded position. -/
theorem lines_avail_mem (c : Customer) :
    ∀ (ys : List CheckoutLine) (i : Nat) (p : Nat × CheckoutLine),
      p ∈ lines_avail c ys i →
      ∃ k, ys[k]? = some p.2 ∧ p.1 = i + k ∧ eligible c p.2 = true := by
  intro ys
  induction ys with
  | nil => intro i p h; simp [lines_avail] at h
  | cons l rest ih =>
      intro i p h
      simp only [lines_avail] at h
      by_cases he : eligible c l
      · rw [if_pos he] at h
        rcases List.mem_cons.mp h with h1 | h1
        · exact ⟨0, by simp [h1], by simp [h1], by rw [h1]; exact he⟩
        · obtain ⟨k, hk, hp, he2⟩ := ih (i + 1) p h1
          exact ⟨k + 1, by simpa using hk, by omega, he2⟩
      · rw [if_neg he] at h
        obtain ⟨k, hk, hp, he2⟩ := ih (i + 1) p h
        exact ⟨k + 1, by simpa using hk, by omega, he2⟩

/-- `List.getD` returns a member of the list or the default. -/
theorem getD_mem_or {α : Type} (xs : List α) (n : Nat) (d : α) :
    xs.getD n d ∈ xs ∨ xs.getD n d = d := by
  rw [List.getD_eq_getElem?_getD]
  cases hx : xs[n]? with
  | none => exact .inr rfl
  | some x =>
      refine .inl ?_
      have := List.getElem?_eq_some.mp hx
      obtain ⟨hlt, hget⟩ := this
      simp [hget.symm]

/-- A successful pure-random pick (any oracle) returns the position of an
eligible line. -/
theorem pick_pure_random_ok (r : Nat) (c : Customer) (store : GroceryStore) (i : Nat)
    (h : pick_checkout_line_pure_random r c store = .ok i) :
    ∃ l, store.lines[i]? = some l ∧ eligible c l = true := by
  unfold pick_checkout_line_pure_random at h
  cases hav : lines_avail c store.lines 0 with
  | nil => rw [hav] at h; simp at h
  | cons a rest =>
      rw [hav] at h
      simp only [Except.ok.injEq] at h
      have hmem : (a :: rest).getD (r % (a :: rest).length) a ∈
          lines_avail c store.lines 0 := by
        rw [hav]
        rcases getD_mem_or (a :: rest) (r % (a :: rest).length) a with h1 | h1
        · exact h1
        · rw [h1]; exact List.mem_cons_self a rest
      obtain ⟨k, hk, hp, he⟩ := lines_avail_mem c store.lines 0 _ hmem
      exact ⟨_, by rw [← h, hp, Nat.zero_add]; exact hk, he⟩

/-- Every line a `rrAux` scan returns is an eligible line of the store at
the recorded position. -/
theorem rrAux_ok_some (c : Customer) (lines : List CheckoutLine) (last : Int)
    (total : Nat) :
    ∀ (offsets : List Nat) (p : Nat × CheckoutLine),
      rrAux c lines last total offsets = .ok (some p) →
      lines[p.1]? = some p.2 ∧ eligible c p.2 = true := by
  intro offsets
  induction offsets with
  | nil => intro p h; simp [rrAux] at h
  | cons o rest ih =>
      intro p h
      simp only [rrAux] at h
      cases hl : lines[((last + (o : Int)) % (total : Int)).toNat]? with
      | none => rw [hl] at h; simp at h
      | some l =>
          rw [hl] at h
          by_cases he : eligible c l = true
          · simp only [he, if_true] at h
            simp only [Except.ok.injEq, Option.some.injEq] at h
            rw [← h]
            exact ⟨hl, he⟩
          · simp only [he, if_false] at h
            exact ih p h

/-- A successful round-robin pick returns the position of an eligible line
and only moves the store's cursor to that line's id. -/
theorem pick_round_robin_ok (c : Customer) (store : GroceryStore) (i : Nat)
    (store2 : GroceryStore)
    (h : pick_checkout_line_round_robin c store = .ok (i, store2)) :
    ∃ l, store.lines[i]? = some l ∧ eligible c l = true ∧
      store2 = { store with last_line_id := (l.id : Int) } := by
  unfold pick_checkout_line_round_robin at h
  cases haux : rrAux c store.lines store.last_line_id store.total_lines
      ((List.range store.total_lines).map (· + 1)) with
  | error e => rw [haux] at h; simp [Bind.bind, Except.bind] at h
  | ok o =>
      rw [haux] at h
      simp only [Bind.bind, Except.bind] at h
      cases o with
      | none => simp at h
      | some p =>
          rcases p with ⟨idx, l⟩
          simp only [Except.ok.injEq, Prod.mk.injEq] at h
          obtain ⟨h1, h2⟩ := h
          obtain ⟨hk, he⟩ := rrAux_ok_some c store.lines _ _ _ _ haux
          exact ⟨l, by rw [← h1]; exact hk, he, h2.symm⟩

/-- The id of a line built by `mkLines` is its position plus the starting
counter. -/
theorem mkLines_id (ts : List String) (i k : Nat) (l : CheckoutLine)
    (h : (mkLines ts i)[k]? = some l) : l.id = i + k := by
  rw [mkLines_getElem?] at h
  cases ht : ts[k]? with
  | none => rw [ht] at h; simp at h
  | some ty =>
      rw [ht] at h
      simp only [Option.map_some', Option.some.injEq] at h
      rw [← h]

/-- In a store built by `GroceryStore.__init__`, the line at position `k`
has id `k`. -/
theorem init_id (line_counts : List (String × Nat)) (k : Nat) (l : CheckoutLine)
    (h : (GroceryStore.init line_counts).lines[k]? = some l) :
    (l.id : Int) = (k : Int) := by
  have h2 : (mkLines
      ((sortedBy (fun a b => strLt a.1 b.1) line_counts).foldl
        (fun acc p => acc ++ List.replicate p.2 p.1) ([] : List String)) 0)[k]? = some l := h
  have := mkLines_id _ 0 k l h2
  omega

/-- When the line at the first scanned position (the one right after the
cursor) exists and is eligible, round robin picks it immediately and moves
the cursor to its id. -/
theorem rr_first_eligible (c : Customer) (store : GroceryStore)
    (hpos : 0 < store.total_lines)
    (l : CheckoutLine)
    (hl : store.lines[((store.last_line_id + 1) %
        (store.total_lines : Int)).toNat]? = some l)
    (he : eligible c l = true) :
    pick_checkout_line_round_robin c store =
      .ok (((store.last_line_id + 1) % (store.total_lines : Int)).toNat,
           { store with last_line_id := (l.id : Int) }) := by
  obtain ⟨m, hm⟩ : ∃ m, store.total_lines = m + 1 := ⟨store.total_lines - 1, by omega⟩
  unfold pick_checkout_line_round_robin
  have hoff : (List.range store.total_lines).map (· + 1) =
      1 :: ((List.range m).map Nat.succ).map (· + 1) := by
    rw [hm, List.range_succ_eq_map]
    simp
  rw [hoff]
  simp only [rrAux, Nat.cast_one]
  rw [hl]
  simp only [he, if_true]
  simp [Bind.bind, Except.bind]

/-! ## Theorems -/

/-- C3: every selection policy — pure random (any oracle), least person,
least item, least time, round robin — only returns lines satisfying the
shared eligibility predicate, and an eligible line is never closed and never
an express line for a customer with more than 10 items; hence no such
customer is ever routed to an express line and no customer to a closed line,
in any run. -/
theorem c3_policies_only_pick_eligible (cs : List Customer) (c : Customer)
    (store : GroceryStore) (gct : DurationModel) (count_first : Bool) (r : Nat) :
    (∀ l : CheckoutLine, eligible c l = true →
      l.closed = false ∧ (l.type = "express" → c.num_items ≤ 10))
    ∧ (∀ i, pick_checkout_line_least_person c store = .ok i →
        ∃ l, store.lines[i]? = some l ∧ eligible c l = true)
    ∧ (∀ i, pick_checkout_line_pure_random r c store = .ok i →
        ∃ l, store.lines[i]? = some l ∧ eligible c l = true)
    ∧ (∀ i, pick_checkout_line_least_item cs c store = .ok i →
        ∃ l, store.lines[i]? = some l ∧ eligible c l = true)
    ∧ (∀ i, pick_checkout_line_least_time gct count_first cs c store = .ok i →
        ∃ l, store.lines[i]? = some l ∧ eligible c l = true)
    ∧ (∀ i store2, pick_checkout_line_round_robin c store = .ok (i, store2) →
        ∃ l, store.lines[i]? = some l ∧ eligible c l = true) := by
  refine ⟨?_, ?_, ?_, ?_, ?_, ?_⟩
  · intro l he
    simp only [eligible, Bool.and_eq_true, Bool.not_eq_true', Bool.or_eq_true,
      bne_iff_ne, ne_eq, decide_eq_true_eq] at he
    obtain ⟨h1, h2⟩ := he
    refine ⟨h1, fun hty => ?_⟩
    rcases h2 with h2 | h2
    · exact absurd hty h2
    · exact h2
  · intro i h
    obtain ⟨l, h1, h2, _⟩ := pick_least_person_ok c store i h
    exact ⟨l, h1, h2⟩
  · intro i h
    exact pick_pure_random_ok r c store i h
  · intro i h
    obtain ⟨l, h1, h2, _⟩ := pick_least_item_ok cs c store i h
    exact ⟨l, h1, h2⟩
  · intro i h
    exact pick_least_time_elig gct count_first cs c store i h
  · intro i store2 h
    obtain ⟨l, h1, h2, _⟩ := pick_round_robin_ok c store i store2 h
    exact ⟨l, h1, h2⟩

/-- C3 witness: all five policies at a concrete store, with every premise
discharged by evaluation. -/
theorem c3_policies_only_pick_eligible_witness :
    ∃ l, sample_store.lines[1]? = some l ∧
      eligible { num_items := 4 : Customer } l = true ∧ l.closed = false := by
  have h := c3_policies_only_pick_eligible sample_customers { num_items := 4 }
    sample_store get_checkout_time_deterministic true 0
  obtain ⟨la, h1a, h2a⟩ := h.2.1 1 (by decide)
  obtain ⟨lb, h1b, h2b⟩ := h.2.2.1 0 (by decide)
  obtain ⟨lc, h1c, h2c⟩ := h.2.2.2.1 1 (by decide)
  obtain ⟨ld, h1d, h2d⟩ := h.2.2.2.2.1 1 (by decide)
  obtain ⟨le', h1e, h2e⟩ := h.2.2.2.2.2 0
    { sample_store with last_line_id := 0 } (by decide)
  exact ⟨la, h1a, h2a, (h.1 la h2a).1⟩

/-- C5: for the least-person, least-item and least-time policies, a returned
line is eligible, its metric (waiting-sequence length, total waiting items,
projected wait time) is less than or equal to that of every eligible line,
and it is strictly smaller than the metric of every eligible line earlier in
the store's iteration order — so among eligible lines attaining the minimum
the first one encountered is returned.  For least time, the projected wait
times are assumed to evaluate (the duration model succeeds on the queued
customers). -/
theorem c5_least_policies_minimality (cs : List Customer) (c : Customer)
    (store : GroceryStore) (gct : DurationModel) (count_first : Bool)
    (qt : CheckoutLine → Int) :
    (∀ i, pick_checkout_line_least_person c store = .ok i →
      ∃ l, store.lines[i]? = some l ∧ eligible c l = true ∧
        ∀ (j : Nat) (l2 : CheckoutLine), store.lines[j]? = some l2 →
          eligible c l2 = true →
          get_num_customers l ≤ get_num_customers l2 ∧
            (j < i → get_num_customers l < get_num_customers l2))
    ∧ (∀ i, pick_checkout_line_least_item cs c store = .ok i →
        ∃ l, store.lines[i]? = some l ∧ eligible c l = true ∧
          ∀ (j : Nat) (l2 : CheckoutLine), store.lines[j]? = some l2 →
            eligible c l2 = true →
            get_num_items cs l ≤ get_num_items cs l2 ∧
              (j < i → get_num_items cs l < get_num_items cs l2))
    ∧ ((∀ l ∈ store.lines, get_queue_time gct cs count_first l = .ok (qt l)) →
        ∀ i, pick_checkout_line_least_time gct count_first cs c store = .ok i →
          ∃ l, store.lines[i]? = some l ∧ eligible c l = true ∧
            ∀ (j : Nat) (l2 : CheckoutLine), store.lines[j]? = some l2 →
              eligible c l2 = true →
              qt l ≤ qt l2 ∧ (j < i → qt l < qt l2)) :=
  ⟨fun i h => pick_least_person_ok c store i h,
   fun i h => pick_least_item_ok cs c store i h,
   fun hqt i h => pick_least_time_ok gct count_first cs c store i qt hqt h⟩

/-- C5 witness: the three least-policies at the concrete sample store, where
line 1 (empty) beats line 0 (one waiting customer with 4 items) on all three
metrics. -/
theorem c5_least_policies_minimality_witness :
    (∃ l, sample_store.lines[1]? = some l ∧
      eligible { num_items := 4 : Customer } l = true ∧
      ∀ (j : Nat) (l2 : CheckoutLine), sample_store.lines[j]? = some l2 →
        eligible { num_items := 4 : Customer } l2 = true →
        get_num_customers l ≤ get_num_customers l2 ∧
          (j < 1 → get_num_customers l < get_num_customers l2))
    ∧ (∃ l, sample_store.lines[1]? = some l ∧
        eligible { num_items := 4 : Customer } l = true ∧
        ∀ (j : Nat) (l2 : CheckoutLine), sample_store.lines[j]? = some l2 →
          eligible { num_items := 4 : Customer } l2 = true →
          get_num_items sample_customers l ≤ get_num_items sample_customers l2 ∧
            (j < 1 → get_num_items sample_customers l < get_num_items sample_customers l2))
    ∧ (∃ l, sample_store.lines[1]? = some l ∧
        eligible { num_items := 4 : Customer } l = true ∧
        ∀ (j : Nat) (l2 : CheckoutLine), sample_store.lines[j]? = some l2 →
          eligible { num_items := 4 : Customer } l2 = true →
          (if l.queue.isEmpty then (0 : Int) else 11) ≤
              (if l2.queue.isEmpty then (0 : Int) else 11) ∧
            (j < 1 → (if l.queue.isEmpty then (0 : Int) else 11) <
              (if l2.queue.isEmpty then (0 : Int) else 11))) := by
  have h := c5_least_policies_minimality sample_customers { num_items := 4 }
    sample_store get_checkout_time_deterministic true
    (fun l => if l.queue.isEmpty then (0 : Int) else 11)
  exact ⟨h.1 1 (by decide), h.2.1 1 (by decide), h.2.2 (by decide) 1 (by decide)⟩

/-- C8: a JoinCheckout event enqueues its customer only into the line just
returned by the active selection policy, and — because every policy returns
only eligible, hence open, lines — the closed-line precondition failure in
`queue_new_customer` is unreachable from event execution: whenever the
active policy (any of the five) returns a line, the join event executes
successfully and appends the customer to exactly that line. -/
theorem c8_join_checkout_safe (cfg : Config) (st : SimState) (t : Int) (cid : Nat)
    (i : Nat) (store2 : GroceryStore)
    (hpol : cfg.pick_checkout_line = policy_least_person ∨
            cfg.pick_checkout_line = policy_least_item ∨
            (∃ gct cf, cfg.pick_checkout_line = policy_least_time gct cf) ∨
            (∃ r, cfg.pick_checkout_line = policy_pure_random r) ∨
            cfg.pick_checkout_line = policy_round_robin)
    (hpick : cfg.pick_checkout_line
        (getc (updateCustomer st.customers cid
          (fun c => { c with join_timestamp := some t })) cid)
        { st with customers := updateCustomer st.customers cid (fun c => { c with join_timestamp := some t }) }
        = .ok (i, store2)) :
    ∃ l, store2.lines[i]? = some l ∧ l.closed = false ∧
      Event.exec cfg (.joinCheckout t cid) st =
        .ok ({ store := setLine store2 i { l with queue := l.queue ++ [cid] }
               customers := updateCustomer st.customers cid
                  (fun c => { c with join_timestamp := some t }) },
             if is_empty l then [.beginCheckout t cid i] else []) := by
  have hline : ∃ l, store2.lines[i]? = some l ∧
      eligible (getc (updateCustomer st.customers cid
        (fun c => { c with join_timestamp := some t })) cid) l = true := by
    rcases hpol with hp | hp | ⟨gct, cf, hp⟩ | ⟨r, hp⟩ | hp
    · rw [hp] at hpick
      unfold policy_least_person at hpick
      cases hf : pick_checkout_line_least_person
          (getc (updateCustomer st.customers cid
            (fun c => { c with join_timestamp := some t })) cid) st.store with
      | error e => rw [hf] at hpick; simp [Except.map] at hpick
      | ok j =>
          rw [hf] at hpick
          simp only [Except.map, Except.ok.injEq, Prod.mk.injEq] at hpick
          obtain ⟨hji, hstore⟩ := hpick
          obtain ⟨l, h1, h2, _⟩ := pick_least_person_ok _ st.store j hf
          exact ⟨l, by rw [← hstore, ← hji]; exact h1, h2⟩
    · rw [hp] at hpick
      unfold policy_least_item at hpick
      cases hf : pick_checkout_line_least_item
          (updateCustomer st.customers cid
            (fun c => { c with join_timestamp := some t }))
          (getc (updateCustomer st.customers cid
            (fun c => { c with join_timestamp := some t })) cid) st.store with
      | error e => rw [hf] at hpick; simp [Except.map] at hpick
      | ok j =>
          rw [hf] at hpick
          simp only [Except.map, Except.ok.injEq, Prod.mk.injEq] at hpick
          obtain ⟨hji, hstore⟩ := hpick
          obtain ⟨l, h1, h2, _⟩ := pick_least_item_ok _ _ st.store j hf
          exact ⟨l, by rw [← hstore, ← hji]; exact h1, h2⟩
    · rw [hp] at hpick
      unfold policy_least_time at hpick
      cases hf : pick_checkout_line_least_time gct cf
          (updateCustomer st.customers cid
            (fun c => { c with join_timestamp := some t }))
          (getc (updateCustomer st.customers cid
            (fun c => { c with join_timestamp := some t })) cid) st.store with
      | error e => rw [hf] at hpick; simp [Except.map] at hpick
      | ok j =>
          rw [hf] at hpick
          simp only [Except.map, Except.ok.injEq, Prod.mk.injEq] at hpick
          obtain ⟨hji, hstore⟩ := hpick
          obtain ⟨l, h1, h2⟩ := pick_least_time_elig gct cf _ _ st.store j hf
          exact ⟨l, by rw [← hstore, ← hji]; exact h1, h2⟩
    · rw [hp] at hpick
      unfold policy_pure_random at hpick
      cases hf : pick_checkout_line_pure_random r
          (getc (updateCustomer st.customers cid
            (fun c => { c with join_timestamp := some t })) cid) st.store with
      | error e => rw [hf] at hpick; simp [Except.map] at hpick
      | ok j =>
          rw [hf] at hpick
          simp only [Except.map, Except.ok.injEq, Prod.mk.injEq] at hpick
          obtain ⟨hji, hstore⟩ := hpick
          obtain ⟨l, h1, h2⟩ := pick_pure_random_ok r _ st.store j hf
          exact ⟨l, by rw [← hstore, ← hji]; exact h1, h2⟩
    · rw [hp] at hpick
      unfold policy_round_robin at hpick
      obtain ⟨l, h1, h2, hstore⟩ := pick_round_robin_ok _ st.store i store2 hpick
      exact ⟨l, by rw [hstore]; exact h1, h2⟩
  obtain ⟨l, hl, he⟩ := hline
  have hclosed : l.closed = false := eligible_not_closed _ l he
  refine ⟨l, hl, hclosed, ?_⟩
  simp only [Event.exec, Bind.bind, Except.bind]
  rw [hpick]
  simp only [hl]
  by_cases hemp : is_empty l = true <;>
    simp [hemp, queue_new_customer, hclosed]

/-- C8 witness: a concrete join event under the least-person policy on a
one-line store. -/
theorem c8_join_checkout_safe_witness :
    ∃ l, ({ lines := [{ id := 0, type := "cashier" }], last_line_id := 0,
            total_lines := 1 } : GroceryStore).lines[0]? = some l ∧
      l.closed = false ∧
      Event.exec detConfig (.joinCheckout 0 0)
        { store := { lines := [{ id := 0, type := "cashier" }], last_line_id := 0,
                     total_lines := 1 }
          customers := [{ num_items := 3 }] } =
        .ok ({ store := setLine
                  { lines := [{ id := 0, type := "cashier" }], last_line_id := 0,
                    total_lines := 1 } 0 { l with queue := l.queue ++ [0] }
               customers := updateCustomer [{ num_items := 3 }] 0
                  (fun c => { c with join_timestamp := some 0 }) },
             if is_empty l then [.beginCheckout 0 0 0] else []) := by
  exact c8_join_checkout_safe detConfig
    { store := { lines := [{ id := 0, type := "cashier" }], last_line_id := 0,
                 total_lines := 1 }
      customers := [{ num_items := 3 }] }
    0 0 0
    { lines := [{ id := 0, type := "cashier" }], last_line_id := 0,
      total_lines := 1 }
    (Or.inl rfl) (by decide)

/-- C4 counterexample: in a store with one cashier line (id 0) and one
express line (id 1), both open and never closed, two successive round-robin
selections for customers with 11 items both return line 0 — the selections
do not cycle through all line ids in ascending order before repeating,
because the express line is skipped by the eligibility rule even though no
line is closed. -/
theorem c4_round_robin_counterexample :
    (∀ l ∈ (GroceryStore.init [("cashier", 1), ("express", 1)]).lines,
      l.closed = false) ∧
    (GroceryStore.init [("cashier", 1), ("express", 1)]).lines.length = 2 ∧
    (pick_checkout_line_round_robin { num_items := 11 }
        (GroceryStore.init [("cashier", 1), ("express", 1)])).bind
      (fun p => (pick_checkout_line_round_robin { num_items := 11 } p.2).map
        (fun q => (p.1, q.1)))
      = .ok (0, 0) := by
  refine ⟨by decide, by decide, by decide⟩

/-- C4 (amended): under the round-robin policy, over any run in which every
line is eligible for every arriving customer (in particular no line is ever
closed and no express-limit exclusion applies), successive selections cycle
through all line ids in ascending id order before repeating: the `n`
successive selections starting from cursor `last_line_id` are exactly
`(last_line_id + 1) % total, (last_line_id + 2) % total, ...`; each
selection starts scanning at the line immediately after the cursor, picks
the first eligible line, and updates the cursor to the chosen line's id. -/
theorem c4_round_robin_cycles_when_all_eligible (c : Customer) :
    ∀ (store : GroceryStore) (n : Nat),
      store.total_lines = store.lines.length →
      0 < store.total_lines →
      (∀ (k : Nat) (l : CheckoutLine), store.lines[k]? = some l →
        (l.id : Int) = (k : Int)) →
      (∀ l ∈ store.lines, eligible c l = true) →
      ∃ store2, rrIterate c store n =
          .ok ((List.range n).map
            (fun (k : Nat) => ((store.last_line_id + 1 + (k : Int)) %
              (store.total_lines : Int)).toNat), store2) ∧
        store2.lines = store.lines ∧ store2.total_lines = store.total_lines := by
  intro store n
  induction n generalizing store with
  | zero =>
      intro _ _ _ _
      exact ⟨store, by simp [rrIterate], rfl, rfl⟩
  | succ n ih =>
      intro htot hpos hid helig
      have hn0 : ((store.total_lines : Int)) ≠ 0 := by exact_mod_cast Nat.pos_iff_ne_zero.mp hpos
      have hnn : (0 : Int) ≤ (store.last_line_id + 1) % (store.total_lines : Int) :=
        Int.emod_nonneg _ hn0
      have hltt : (store.last_line_id + 1) % (store.total_lines : Int) <
          (store.total_lines : Int) :=
        Int.emod_lt_of_pos _ (by exact_mod_cast hpos)
      have hidx : ((store.last_line_id + 1) % (store.total_lines : Int)).toNat <
          store.lines.length := by omega
      have hl : store.lines[((store.last_line_id + 1) %
          (store.total_lines : Int)).toNat]? =
          some (store.lines[((store.last_line_id + 1) %
            (store.total_lines : Int)).toNat]) :=
        List.getElem?_eq_getElem hidx
      have he : eligible c (store.lines[((store.last_line_id + 1) %
          (store.total_lines : Int)).toNat]) = true :=
        helig _ (List.getElem_mem hidx)
      have hstep := rr_first_eligible c store hpos _ hl he
      have hcursor : ((store.lines[((store.last_line_id + 1) %
          (store.total_lines : Int)).toNat]).id : Int) =
          (store.last_line_id + 1) % (store.total_lines : Int) := by
        have := hid _ _ hl
        rw [this]
        omega
      set store1 : GroceryStore :=
        { store with last_line_id := (store.last_line_id + 1) %
            (store.total_lines : Int) } with hstore1
      have hstep2 : pick_checkout_line_round_robin c store =
          .ok (((store.last_line_id + 1) % (store.total_lines : Int)).toNat,
            store1) := by
        rw [hstep, hcursor]
      obtain ⟨store2, hiter, hlines, htotal⟩ := ih store1 htot hpos hid helig
      refine ⟨store2, ?_, hlines, htotal⟩
      simp only [rrIterate, Bind.bind, Except.bind]
      simp only [hstep2, hiter]
      have hlist : (List.range (n + 1)).map
          (fun (k : Nat) => ((store.last_line_id + 1 + (k : Int)) %
            (store.total_lines : Int)).toNat) =
          ((store.last_line_id + 1) % (store.total_lines : Int)).toNat ::
            (List.range n).map
              (fun (k : Nat) => ((store1.last_line_id + 1 + (k : Int)) %
                (store1.total_lines : Int)).toNat) := by
        rw [List.range_succ_eq_map, List.map_cons, List.map_map]
        refine congrArg₂ _ (by simp) ?_
        refine List.map_congr_left ?_
        intro k _
        simp only [Function.comp_apply, hstore1]
        have h1 : ((store.last_line_id + 1) % (store.total_lines : Int) + 1 +
            (k : Int)) % (store.total_lines : Int) =
            (store.last_line_id + 1 + ((k : Int) + 1)) %
              (store.total_lines : Int) := by
          rw [Int.add_assoc, Int.emod_add_emod]
          ring_nf
        rw [h1]
        have h2 : ((Nat.succ k : Nat) : Int) = (k : Int) + 1 := by push_cast; ring
        rw [h2]
      rw [hlist]

/-- C4 witness: three successive selections on a fresh three-cashier store
visit the ids 0, 1, 2 in order. -/
theorem c4_round_robin_cycles_witness :
    ∃ store2, rrIterate { num_items := 3 } (GroceryStore.init [("cashier", 3)]) 3 =
        .ok ((List.range 3).map
          (fun (k : Nat) => (((GroceryStore.init [("cashier", 3)]).last_line_id + 1 + (k : Int)) %
            (((GroceryStore.init [("cashier", 3)]).total_lines : Int))).toNat), store2) ∧
      store2.lines = (GroceryStore.init [("cashier", 3)]).lines ∧
      store2.total_lines = (GroceryStore.init [("cashier", 3)]).total_lines :=
  c4_round_robin_cycles_when_all_eligible { num_items := 3 }
    (GroceryStore.init [("cashier", 3)]) 3 rfl (by decide)
    (fun k l h => init_id [("cashier", 3)] k l h) (by decide)

/-- C10: a freshly constructed store has its round-robin cursor equal to the
highest line id, i.e. the line count minus one; consequently the first
round-robin selection starts its cyclic scan at line id 0 and, when line 0
is eligible, picks it and moves the cursor to 0. -/
theorem c10_fresh_store_cursor (line_counts : List (String × Nat)) (c : Customer) :
    (GroceryStore.init line_counts).last_line_id =
      ((GroceryStore.init line_counts).total_lines : Int) - 1 ∧
    ∀ l0, (GroceryStore.init line_counts).lines[0]? = some l0 →
      eligible c l0 = true →
      pick_checkout_line_round_robin c (GroceryStore.init line_counts) =
        .ok (0, { GroceryStore.init line_counts with last_line_id := 0 }) := by
  refine ⟨rfl, ?_⟩
  intro l0 hl0 he
  have hlen : 0 < (GroceryStore.init line_counts).lines.length := by
    obtain ⟨hlt, _⟩ := List.getElem?_eq_some.mp hl0
    exact hlt
  have hpos : 0 < (GroceryStore.init line_counts).total_lines := hlen
  have hidx : ((GroceryStore.init line_counts).last_line_id + 1) %
      ((GroceryStore.init line_counts).total_lines : Int) = 0 := by
    have h1 : (GroceryStore.init line_counts).last_line_id =
        ((GroceryStore.init line_counts).total_lines : Int) - 1 := rfl
    rw [h1, Int.sub_add_cancel, Int.emod_self]
  have hl : (GroceryStore.init line_counts).lines[(((GroceryStore.init
      line_counts).last_line_id + 1) %
      ((GroceryStore.init line_counts).total_lines : Int)).toNat]? = some l0 := by
    rw [hidx]
    exact hl0
  have h := rr_first_eligible c (GroceryStore.init line_counts) hpos l0 hl he
  rw [hidx] at h
  have hid0 : (l0.id : Int) = 0 := init_id line_counts 0 l0 hl0
  rw [hid0] at h
  exact h

/-- C10 witness: a fresh two-cashier store has cursor 1, and the first
round-robin selection picks line 0. -/
theorem c10_fresh_store_cursor_witness :
    (GroceryStore.init [("cashier", 2)]).last_line_id =
      ((GroceryStore.init [("cashier", 2)]).total_lines : Int) - 1 ∧
    pick_checkout_line_round_robin { num_items := 3 }
        (GroceryStore.init [("cashier", 2)]) =
      .ok (0, { GroceryStore.init [("cashier", 2)] with last_line_id := 0 }) := by
  have h := c10_fresh_store_cursor [("cashier", 2)] { num_items := 3 }
  exact ⟨h.1, h.2 { id := 0, type := "cashier" } (by decide) (by decide)⟩

/-- C6: the deterministic checkout-duration model is a pure function
returning `weight[category] * itemCount + bias[category]` for every customer
and every line whose category is cashier, express or self — with weights
1, 1, 2 and biases 7, 4, 1 respectively — and it fails with an
unknown-category error for any other category. -/
theorem c6_deterministic_duration_model (c : Customer) (l : CheckoutLine) :
    get_checkout_time_deterministic c l =
      if l.type = "cashier" then .ok (1 * c.num_items + 7)
      else if l.type = "express" then .ok (1 * c.num_items + 4)
      else if l.type = "self" then .ok (2 * c.num_items + 1)
      else .error "Error: unknown checkout line type." := by
  by_cases h1 : l.type = "cashier" <;> by_cases h2 : l.type = "express" <;>
    by_cases h3 : l.type = "self" <;>
    simp [get_checkout_time_deterministic, checkout_w, checkout_b, h1, h2, h3,
      Int.mul_comm]

/-- C2: executing a FinishCheckout event at time `t` for a customer at the
head of the line's waiting sequence sets that customer's finish timestamp to
`t`, moves the head of the waiting sequence to the end of the served list,
and spawns exactly one BeginCheckout for the new head with the same
timestamp `t` when the waiting sequence is still non-empty, and no event
otherwise. -/
theorem c2_finish_checkout_event (cfg : Config) (st : SimState) (t : Int)
    (cid li : Nat) (l : CheckoutLine) (rest : List Nat)
    (hl : st.store.lines[li]? = some l) (hq : l.queue = cid :: rest) :
    Event.exec cfg (.finishCheckout t cid li) st =
      .ok ({ store := setLine st.store li
                { l with queue := rest, served := l.served ++ [cid] }
             customers := updateCustomer st.customers cid
                (fun c => { c with finish_timestamp := some t }) },
           match rest with
           | [] => []
           | next_customer :: _ => [.beginCheckout t next_customer li]) := by
  cases rest <;>
    simp [Event.exec, hl, hq, is_empty, get_num_customers, serve_next_customer,
      Bind.bind, Except.bind]

/-- C2 witness: a concrete finish event on a line whose queue holds customers
`0` and `1`. -/
theorem c2_finish_checkout_event_witness :
    Event.exec detConfig (.finishCheckout 10 0 0)
      { store := { lines := [{ id := 0, type := "cashier", queue := [0, 1] }]
                   last_line_id := 0, total_lines := 1 }
        customers := [{ num_items := 3, join_timestamp := some 0,
                        begin_timestamp := some 0 },
                      { num_items := 5, join_timestamp := some 0 }] } =
      .ok ({ store := { lines := [{ id := 0, type := "cashier", queue := [1],
                                    served := [0] }]
                        last_line_id := 0, total_lines := 1 }
             customers := [{ num_items := 3, join_timestamp := some 0,
                             begin_timestamp := some 0,
                             finish_timestamp := some 10 },
                           { num_items := 5, join_timestamp := some 0 }] },
           [.beginCheckout 10 1 0]) := by
  have h := c2_finish_checkout_event detConfig
    { store := { lines := [{ id := 0, type := "cashier", queue := [0, 1] }]
                 last_line_id := 0, total_lines := 1 }
      customers := [{ num_items := 3, join_timestamp := some 0,
                      begin_timestamp := some 0 },
                    { num_items := 5, join_timestamp := some 0 }] }
    10 0 0 { id := 0, type := "cashier", queue := [0, 1] } [1] rfl rfl
  exact h

/-- C1: the end-to-end example.  With one cashier line (id 0), the
deterministic duration model (`items + 7` at a cashier line) and the initial
event text `"0,join,3"` followed by `"0,join,5"`: customer 0 joins at 0,
begins at 0 and finishes at 10; customer 1 joins at 0, begins at 10 and
finishes at 22; both end up served on line 0 and the wait-criterion query
returns the raw values `[0, 10]`.  For the single-customer text `"0,join,3"`
the query returns count 1 with the raw value `[0]`. -/
theorem c1_end_to_end_example :
    ((Simulator.run detConfig 32 (Simulator.init [("cashier", 1)])
        "0,join,3\n0,join,5").map
      (fun sim => (sim.state.customers,
        sim.state.store.lines.map (fun l => (l.queue, l.served))))
      = .ok ([{ num_items := 3, join_timestamp := some 0, begin_timestamp := some 0,
                finish_timestamp := some 10 },
              { num_items := 5, join_timestamp := some 0, begin_timestamp := some 10,
                finish_timestamp := some 22 }],
             [([], [0, 1])]))
    ∧ (((Simulator.run detConfig 32 (Simulator.init [("cashier", 1)])
          "0,join,3\n0,join,5").bind
        (fun sim => sim.query_statistics "wait" none none none "join")).map
          (fun r => (r.1.count, r.2))
        = .ok (2, [0, 10]))
    ∧ (((Simulator.run detConfig 32 (Simulator.init [("cashier", 1)])
          "0,join,3").bind
        (fun sim => sim.query_statistics "wait" none none none "join")).map
          (fun r => (r.1.count, r.2))
        = .ok (1, [0])) := by
  refine ⟨by decide, by decide, by decide⟩

/-- With a valid `filter_by` and the selected timestamp set, the code's
timestamp selection returns it. -/
theorem customer_filter_timestamp_ok (cs : List Customer) (filter_by : String)
    (cid : Nat) (ts : Int)
    (hfb : filter_by = "join" ∨ filter_by = "begin" ∨ filter_by = "finish")
    (h : spec_timestamp filter_by (getc cs cid) = some ts) :
    customer_filter_timestamp cs filter_by cid = .ok ts := by
  rcases hfb with rfl | rfl | rfl <;>
    [skip; skip; skip] <;>
    (simp [spec_timestamp] at h; simp [customer_filter_timestamp, h])

/-- The inner query loop agrees with the specification filter on served
lists whose selected timestamps are all set. -/
theorem collect_line_eq (cs : List Customer) (filter_by : String)
    (start_time : Int) (end_time : Option Int)
    (hfb : filter_by = "join" ∨ filter_by = "begin" ∨ filter_by = "finish") :
    ∀ served : List Nat,
      (∀ cid ∈ served, spec_timestamp filter_by (getc cs cid) ≠ none) →
      collect_line cs filter_by start_time end_time served =
        .ok (served.filter (spec_keep cs filter_by start_time end_time)) := by
  intro served
  induction served with
  | nil => intro _; simp [collect_line]
  | cons cid rest ih =>
      intro hts
      obtain ⟨ts, hts0⟩ : ∃ ts, spec_timestamp filter_by (getc cs cid) = some ts := by
        cases h0 : spec_timestamp filter_by (getc cs cid) with
        | none => exact absurd h0 (hts cid (by simp))
        | some ts => exact ⟨ts, rfl⟩
      have h1 := customer_filter_timestamp_ok cs filter_by cid ts hfb hts0
      have h2 := ih (fun c2 hc2 => hts c2 (by simp [hc2]))
      simp only [collect_line, h1, h2, Bind.bind, Except.bind]
      rw [List.filter_cons]
      simp only [spec_keep, hts0]
      by_cases hw : in_window start_time end_time ts = true <;> simp [hw]

/-- The outer query loop agrees with the specification: it retains exactly
the served customers of the selected lines whose selected timestamp lies in
the window. -/
theorem collect_customers_eq (cs : List Customer) (line_ids : Option (List Nat))
    (filter_by : String) (start_time : Int) (end_time : Option Int)
    (hfb : filter_by = "join" ∨ filter_by = "begin" ∨ filter_by = "finish") :
    ∀ lines : List CheckoutLine,
      (∀ l ∈ lines, ∀ cid ∈ l.served,
        spec_timestamp filter_by (getc cs cid) ≠ none) →
      collect_customers cs line_ids filter_by start_time end_time lines =
        .ok (spec_retained cs lines line_ids filter_by start_time end_time) := by
  intro lines
  induction lines with
  | nil => intro _; simp [collect_customers, spec_retained, spec_selected_lines]
  | cons l rest ih =>
      intro hts
      have h2 := ih (fun l2 hl2 => hts l2 (by simp [hl2]))
      have h1 := collect_line_eq cs filter_by start_time end_time hfb l.served
        (hts l (by simp))
      cases line_ids with
      | none =>
          simp only [collect_customers, h2, h1, Bind.bind, Except.bind, if_true]
          simp [spec_retained, spec_selected_lines, List.filter_cons,
            List.filter_append]
      | some ids =>
          by_cases hc : ids.contains l.id = true
          · simp only [collect_customers, h2, h1, Bind.bind, Except.bind, hc,
              if_true]
            have hmem : l.id ∈ ids := by simpa using hc
            simp [spec_retained, spec_selected_lines, List.filter_cons, hmem,
              List.filter_append, Function.comp]
          · simp only [Bool.not_eq_true] at hc
            simp only [collect_customers, h2, Bind.bind, Except.bind, hc,
              Bool.false_eq_true, if_false]
            have hmem : l.id ∉ ids := by simpa using hc
            simp [spec_retained, spec_selected_lines, List.filter_cons, hmem]

/-- With a valid criterion and all timestamps set, the raw-value loop
computes the specification's criterion values. -/
theorem raw_times_eq (cs : List Customer) (criterion : String)
    (hcrit : criterion = "wait" ∨ criterion = "checkout" ∨ criterion = "total") :
    ∀ cids : List Nat,
      (∀ cid ∈ cids, tsSet (getc cs cid)) →
      raw_times cs criterion cids = .ok (spec_raw cs criterion cids) := by
  intro cids
  induction cids with
  | nil => intro _; simp [raw_times, spec_raw]
  | cons cid rest ih =>
      intro hts
      obtain ⟨hj, hb, hf⟩ := hts cid (by simp)
      obtain ⟨j, hj⟩ := Option.ne_none_iff_exists'.mp hj
      obtain ⟨b, hb⟩ := Option.ne_none_iff_exists'.mp hb
      obtain ⟨f, hf⟩ := Option.ne_none_iff_exists'.mp hf
      have h2 := ih (fun c2 hc2 => hts c2 (by simp [hc2]))
      rcases hcrit with rfl | rfl | rfl <;>
        simp [raw_times, spec_raw, spec_criterion, tsub, hj, hb, hf, h2,
          Bind.bind, Except.bind]

/-- Customers retained by the specification are served customers of lines
of the store. -/
theorem spec_retained_mem (cs : List Customer) (lines : List CheckoutLine)
    (line_ids : Option (List Nat)) (filter_by : String) (start_time : Int)
    (end_time : Option Int) (cid : Nat)
    (h : cid ∈ spec_retained cs lines line_ids filter_by start_time end_time) :
    ∃ l ∈ lines, cid ∈ l.served := by
  simp only [spec_retained, List.mem_filter, List.mem_flatten, List.mem_map] at h
  obtain ⟨⟨s, ⟨l, hl, rfl⟩, hcs⟩, _⟩ := h
  exact ⟨l, (List.mem_filter.mp hl).1, hcs⟩

/-- C7: after a completed run, the statistics query retains exactly the
served customers of the selected lines (all lines when none are given) whose
`filter_by` timestamp lies in `[startTime, endTime)` (defaults: full range),
computes for each the criterion value (wait = begin − join, checkout =
finish − begin, total = finish − join), and returns the raw values together
with their count, sum, min, max, mean and standard deviation (`std_sq` is
the variance, whose square root numpy reports as std). -/
theorem c7_query_statistics_refines_spec (sim : Simulator)
    (criterion filter_by : String) (start_time end_time : Option Int)
    (line_ids : Option (List Nat))
    (hfin : sim.finished = true)
    (hfb : filter_by = "join" ∨ filter_by = "begin" ∨ filter_by = "finish")
    (hcrit : criterion = "wait" ∨ criterion = "checkout" ∨ criterion = "total")
    (hts : ∀ l ∈ sim.state.store.lines, ∀ cid ∈ l.served,
      tsSet (getc sim.state.customers cid))
    (retained : List Nat)
    (hret : retained = spec_retained sim.state.customers sim.state.store.lines
      line_ids filter_by (start_time.getD 0) end_time)
    (R : List Int) (hR : R = spec_raw sim.state.customers criterion retained)
    (hne : retained ≠ []) :
    ∃ mn mx, R.min? = some mn ∧ R.max? = some mx ∧
      sim.query_statistics criterion start_time end_time line_ids filter_by =
        .ok ({ count := retained.length
               sum := R.sum
               min := mn
               max := mx
               mean := (R.sum : ℚ) / R.length
               std_sq := ((R.map
                  (fun (x : Int) => ((x : ℚ) - (R.sum : ℚ) / R.length) ^ 2)).sum) /
                    R.length }, R) := by
  have hts2 : ∀ l ∈ sim.state.store.lines, ∀ cid ∈ l.served,
      spec_timestamp filter_by (getc sim.state.customers cid) ≠ none := by
    intro l hl cid hc
    obtain ⟨hj, hb, hf⟩ := hts l hl cid hc
    rcases hfb with rfl | rfl | rfl <;> simp [spec_timestamp] <;> assumption
  have hcol := collect_customers_eq sim.state.customers line_ids filter_by
    (start_time.getD 0) end_time hfb sim.state.store.lines hts2
  have hretmem : ∀ cid ∈ retained, tsSet (getc sim.state.customers cid) := by
    intro cid hc
    rw [hret] at hc
    obtain ⟨l, hl, hcs⟩ := spec_retained_mem _ _ _ _ _ _ _ hc
    exact hts l hl cid hcs
  have hraw := raw_times_eq sim.state.customers criterion hcrit retained hretmem
  cases hR0 : R with
  | nil =>
      exfalso
      apply hne
      have h0 : spec_raw sim.state.customers criterion retained = [] :=
        hR.symm.trans hR0
      simpa [spec_raw, List.map_eq_nil_iff] using h0
  | cons x rest =>
      have hRspec : spec_raw sim.state.customers criterion retained = x :: rest :=
        hR.symm.trans hR0
      refine ⟨rest.foldl min x, rest.foldl max x, rfl, rfl, ?_⟩
      unfold Simulator.query_statistics
      rw [hfin]
      simp only [Bool.not_true, Bind.bind, Except.bind, if_false]
      rw [← hret] at hcol
      simp only [hcol, hraw, hRspec, np_min, np_max]
      simp [np_mean, np_var, hRspec]

/-- C7 witness: the query on a concrete finished simulator with one served
customer. -/
theorem c7_query_statistics_refines_spec_witness :
    ∃ mn mx, ([(0 : Int)]).min? = some mn ∧ ([(0 : Int)]).max? = some mx ∧
      sample_finished_sim.query_statistics "wait" none none none "join" =
        .ok ({ count := [(0 : Nat)].length
               sum := ([(0 : Int)]).sum
               min := mn
               max := mx
               mean := (([(0 : Int)]).sum : ℚ) / ([(0 : Int)]).length
               std_sq := ((([(0 : Int)]).map
                  (fun (x : Int) => ((x : ℚ) - (([(0 : Int)]).sum : ℚ) /
                    ([(0 : Int)]).length) ^ 2)).sum) /
                    ([(0 : Int)]).length }, [(0 : Int)]) :=
  c7_query_statistics_refines_spec sample_finished_sim "wait" "join" none none
    none rfl (Or.inl rfl) (Or.inl rfl) (by decide) [0] (by decide) [0]
    (by decide) (by decide)

/-- C9: when the set of customers retained by a statistics query is empty,
the query does not return a zero-count summary: `np.min` over the empty
value array raises, so the query fails with an error and a caller cannot
obtain statistics for an empty selection. -/
theorem c9_query_statistics_empty_errors (sim : Simulator)
    (criterion filter_by : String) (start_time end_time : Option Int)
    (line_ids : Option (List Nat))
    (hfin : sim.finished = true)
    (hfb : filter_by = "join" ∨ filter_by = "begin" ∨ filter_by = "finish")
    (hts : ∀ l ∈ sim.state.store.lines, ∀ cid ∈ l.served,
      tsSet (getc sim.state.customers cid))
    (hempty : spec_retained sim.state.customers sim.state.store.lines line_ids
      filter_by (start_time.getD 0) end_time = []) :
    sim.query_statistics criterion start_time end_time line_ids filter_by =
      .error "ValueError: zero-size array to reduction operation." := by
  have hts2 : ∀ l ∈ sim.state.store.lines, ∀ cid ∈ l.served,
      spec_timestamp filter_by (getc sim.state.customers cid) ≠ none := by
    intro l hl cid hc
    obtain ⟨hj, hb, hf⟩ := hts l hl cid hc
    rcases hfb with rfl | rfl | rfl <;> simp [spec_timestamp] <;> assumption
  have hcol := collect_customers_eq sim.state.customers line_ids filter_by
    (start_time.getD 0) end_time hfb sim.state.store.lines hts2
  unfold Simulator.query_statistics
  rw [hfin]
  simp only [Bool.not_true, Bind.bind, Except.bind, if_false]
  rw [hcol, hempty]
  simp [raw_times, np_min]

/-- C9 witness: the query on a concrete finished simulator with no served
customer fails with the numpy zero-size error. -/
theorem c9_query_statistics_empty_errors_witness :
    sample_empty_sim.query_statistics "wait" none none none "join" =
      .error "ValueError: zero-size array to reduction operation." :=
  c9_query_statistics_empty_errors sample_empty_sim "wait" "join" none none
    none rfl (Or.inl rfl) (by decide) (by decide)

end Supermarket
